import Mathlib

/-!
Shallow embedding of the fine/overdue subsystem of the gatimbi-library-portal
repository (src/server/services/fineService.js, src/server/services/notificationService.js,
and the Borrow/Fine mongoose models), together with proofs of the spec's
testable properties.

Modelling conventions:
* Times are integers counting minutes; `moment.diff(_, 'days')` / `'hours'`
  truncates toward zero, modelled by `Int.tdiv`.
* JS numbers are modelled by `ℚ`; `Math.round` is `⌊x + 1/2⌋`.
* Each service method takes the database and returns
  `Except Err α × DB`: the database component carries every write performed
  before a throw (JS mutations are not rolled back by an exception).
* External SMS/email transport and the notification-record write are the
  only failures injected from outside, via `Env`; all other store writes
  succeed, as the claims assume a healthy database.
-/

/-- moment(...).diff granularity: minutes per day. -/
def minutesPerDay : Int := 1440

/-- minutes per hour. -/
def minutesPerHour : Int := 60

/-- `now.diff(dueDate, 'days')`: whole-day difference, truncated toward zero. -/
def diffDays (now due : Int) : Int := Int.tdiv (now - due) minutesPerDay

/-- `now.diff(dueDate, 'hours')`: whole-hour difference, truncated toward zero. -/
def diffHours (now due : Int) : Int := Int.tdiv (now - due) minutesPerHour

/-- JS `Math.round`: round half toward positive infinity. -/
def jsRound (x : ℚ) : Int := ⌊x + 1/2⌋

/-- `Math.round(x * 100) / 100`: round to 2 decimal places. -/
def round2 (x : ℚ) : ℚ := (jsRound (x * 100) : ℚ) / 100

/-- Borrow lifecycle type (borrowSchema.type enum). -/
inductive BorrowType
  | reservation | borrowed | returned | overdue | lost
deriving DecidableEq, Repr

/-- Borrow status (borrowSchema.status enum). -/
inductive BorrowStatus
  | active | completed | cancelled | overdue
deriving DecidableEq, Repr

/-- Fine type (fineSchema.type enum). -/
inductive FineType
  | overdue | lost | damaged | reservation_expired
deriving DecidableEq, Repr

/-- Fine status (fineSchema.status enum). -/
inductive FineStatus
  | pending | paid | waived | cancelled
deriving DecidableEq, Repr

/-- A Borrow (loan) document. -/
structure Borrow where
  id : Nat
  user : Nat
  book : Nat
  btype : BorrowType := .reservation
  status : BorrowStatus := .active
  dueDate : Int
  isLost : Bool := false
  lostAt : Option Int := none
  issuedBy : Nat := 0
deriving DecidableEq, Repr

/-- A Book document (only the field the fine subsystem reads). -/
structure Book where
  id : Nat
  price : ℚ
deriving DecidableEq, Repr

/-- A User document (only the fields the fine subsystem touches). -/
structure UserRec where
  id : Nat
  fineBalance : ℚ := 0
  phone : Option String := none
  email : Option String := none
deriving DecidableEq, Repr

/-- A Fine document (fineSchema). -/
structure Fine where
  id : Nat
  user : Nat
  borrow : Nat
  amount : ℚ
  ftype : FineType
  status : FineStatus := .pending
  dueDate : Int
  paidAt : Option Int := none
  paidBy : Option Nat := none
  waivedAt : Option Int := none
  waivedBy : Option Nat := none
  waiverReason : Option String := none
  baseAmount : ℚ
  rateType : String := "per_day"
  rate : ℚ := 50
  gracePeriod : Int := 0
  overdueDays : Int := 0
  bookValue : ℚ := 0
  replacementCost : ℚ := 0
deriving DecidableEq, Repr

/-- A Notification record; content strings are immaterial to the claims and
are not modelled, only the type tag and per-channel outcome flags. -/
structure NotifRec where
  user : Nat
  ntype : String
  sentSms : Bool := false
  sentEmail : Bool := false
  failedSms : Bool := false
  failedEmail : Bool := false
deriving DecidableEq, Repr

/-- SystemConfig store: key/value pairs read by the fine service, `none`
meaning the key is absent so `getValue` falls back to the default. -/
structure SystemConfigStore where
  grace_period_days : Option Int := none
  fine_daily_rate : Option ℚ := none
  fine_hourly_rate : Option ℚ := none
  fine_rate_type : Option String := none
  max_fine_amount : Option ℚ := none
deriving DecidableEq, Repr

/-- FineService's `this.defaultConfig`. -/
structure DefaultConfig where
  gracePeriod : Int := 2
  dailyRate : ℚ := 50
  hourlyRate : ℚ := 5
  maxFine : ℚ := 2000
  lostBookMultiplier : ℚ := 2
deriving DecidableEq, Repr

/-- The constructed default configuration. -/
def defaultConfig : DefaultConfig := {}

/-- The database state threaded through every service call. -/
structure DB where
  borrows : List Borrow := []
  books : List Book := []
  users : List UserRec := []
  fines : List Fine := []
  notifs : List NotifRec := []
  config : SystemConfigStore := {}
  nextFineId : Nat := 0
deriving DecidableEq, Repr

/-- Effective grace period: `SystemConfig.getValue('grace_period_days', default)`. -/
def DB.gracePeriod (db : DB) : Int :=
  db.config.grace_period_days.getD defaultConfig.gracePeriod

/-- Effective daily rate: `SystemConfig.getValue('fine_daily_rate', default)`. -/
def DB.dailyRate (db : DB) : ℚ :=
  db.config.fine_daily_rate.getD defaultConfig.dailyRate

/-- Effective hourly rate: `SystemConfig.getValue('fine_hourly_rate', default)`. -/
def DB.hourlyRate (db : DB) : ℚ :=
  db.config.fine_hourly_rate.getD defaultConfig.hourlyRate

/-- Effective rate type: `SystemConfig.getValue('fine_rate_type', 'per_day')`. -/
def DB.rateType (db : DB) : String :=
  db.config.fine_rate_type.getD "per_day"

/-- Effective fine cap: `SystemConfig.getValue('max_fine_amount', default)`. -/
def DB.maxFine (db : DB) : ℚ :=
  db.config.max_fine_amount.getD defaultConfig.maxFine

/-- `Borrow.findById`. -/
def findBorrow (db : DB) (bid : Nat) : Option Borrow :=
  db.borrows.find? (fun b => b.id == bid)

/-- `Fine.findById`. -/
def findFine (db : DB) (fid : Nat) : Option Fine :=
  db.fines.find? (fun f => f.id == fid)

/-- `User.findById` (also what populating a user reference resolves to). -/
def findUser (db : DB) (uid : Nat) : Option UserRec :=
  db.users.find? (fun u => u.id == uid)

/-- `Book.findById` (what populating a book reference resolves to). -/
def findBook (db : DB) (bkid : Nat) : Option Book :=
  db.books.find? (fun b => b.id == bkid)

/-- `Fine.findOne({ borrow: bid, type: 'overdue' })` is some. -/
def hasOverdueFine (db : DB) (bid : Nat) : Bool :=
  db.fines.any (fun f => f.borrow == bid && f.ftype == FineType.overdue)

/-- `Fine.findOne({ borrow: bid, type: 'lost' })` is some. -/
def hasLostFine (db : DB) (bid : Nat) : Bool :=
  db.fines.any (fun f => f.borrow == bid && f.ftype == FineType.lost)

/-- Number of overdue-type fine records attached to a loan. -/
def countOverdueFines (db : DB) (bid : Nat) : Nat :=
  db.fines.countP (fun f => f.borrow == bid && f.ftype == FineType.overdue)

/-- `User.findByIdAndUpdate(uid, { $inc: { fineBalance: d } })`. -/
def incBalance (db : DB) (uid : Nat) (d : ℚ) : DB :=
  { db with users := db.users.map fun u =>
      if u.id == uid then { u with fineBalance := u.fineBalance + d } else u }

/-- `fine.save()` after mutating the document with id `fid` through `g`. -/
def updateFine (db : DB) (fid : Nat) (g : Fine → Fine) : DB :=
  { db with fines := db.fines.map (fun f => if f.id == fid then g f else f) }

/-- `Borrow.findByIdAndUpdate(bid, ...)` applying `g`. -/
def updateBorrow (db : DB) (bid : Nat) (g : Borrow → Borrow) : DB :=
  { db with borrows := db.borrows.map (fun b => if b.id == bid then g b else b) }

/-- `Fine.create(data)`: append the new document, advance the fresh-id counter. -/
def addFine (db : DB) (f : Fine) : DB :=
  { db with fines := db.fines ++ [f], nextFineId := db.nextFineId + 1 }

/-- Error taxonomy; each constructor corresponds to one `throw new Error(...)`
site (names follow the spec's taxonomy, comments give the JS message). -/
inductive Err
  | invalidBorrow      -- 'Invalid borrow record or already completed'
  | borrowNotFound     -- 'Borrow record not found'
  | duplicateFine      -- 'Fine already exists for this borrow'
  | duplicateLostFine  -- 'Fine already exists for this lost book'
  | fineNotFound       -- 'Fine not found'
  | alreadyPaid        -- 'Fine is already paid'
  | cannotWaivePaid    -- 'Cannot waive already paid fine'
  | userNotFound       -- TypeError reading a field of an unpopulated user
  | bookNotFound       -- TypeError reading price of an unpopulated book
  | notificationFailed -- Notification.create rejected inside sendNotification
deriving DecidableEq, Repr

/-- Injected outcomes of the external notification infrastructure:
`smsFails` / `emailFails` model the SMS / email transport throwing inside
`sendSMS` / `sendEmail`; `notifCreateFails` models `Notification.create`
rejecting at the top of `sendNotification`. -/
structure Env where
  smsFails : Bool := false
  emailFails : Bool := false
  notifCreateFails : Bool := false
deriving DecidableEq, Repr

/-- Notification channels (the fine subsystem uses sms / email / in_app). -/
inductive Channel
  | sms | email | in_app
deriving DecidableEq, Repr

/-- Per-channel results object assembled by `sendNotification`
(`none` = channel not attempted, `some true` = sent, `some false` = failed). -/
structure SendOutcome where
  sms : Option Bool := none
  email : Option Bool := none
deriving DecidableEq, Repr

/-- One iteration of `sendNotification`'s channel loop: attempt a channel,
recording success (`markAsSent`) or a swallowed failure (`markAsFailed`). -/
def attemptChannel (env : Env) (u : UserRec) (p : NotifRec × SendOutcome)
    (c : Channel) : NotifRec × SendOutcome :=
  match c with
  | .sms =>
    if u.phone.isSome then
      if env.smsFails then ({ p.1 with failedSms := true }, { p.2 with sms := some false })
      else ({ p.1 with sentSms := true }, { p.2 with sms := some true })
    else p
  | .email =>
    if u.email.isSome then
      if env.emailFails then ({ p.1 with failedEmail := true }, { p.2 with email := some false })
      else ({ p.1 with sentEmail := true }, { p.2 with email := some true })
    else p
  | .in_app => p

/-- `notificationService.sendNotification`: create a notification record and
try each requested channel, swallowing (only) per-channel transport failures. -/
def sendNotification (env : Env) (db : DB) (u : UserRec) (ntype : String)
    (channels : List Channel) : Except Err SendOutcome × DB :=
  if env.notifCreateFails then (.error .notificationFailed, db)
  else
    let p := channels.foldl (attemptChannel env u) ({ user := u.id, ntype := ntype }, {})
    (.ok p.2, { db with notifs := db.notifs ++ [p.1] })

/-- `notificationService.sendFineNotice(fine)`: resolve the fine's user and
send a 'fine_notice' through SMS and email; its catch block rethrows. -/
def sendFineNotice (env : Env) (db : DB) (fine : Fine) : Except Err SendOutcome × DB :=
  match findUser db fine.user with
  | none => (.error .userNotFound, db)
  | some u => sendNotification env db u "fine_notice" [Channel.sms, Channel.email]

/-- Result object of `calculateOverdueFine`; the grace-period branch returns
an object with only `fineAmount` and `gracePeriodUsed`, so the remaining
fields are optional (`none` = absent / undefined). -/
structure CalcResult where
  fineAmount : ℚ
  gracePeriodUsed : Bool
  overdueDays : Option Int := none
  rateType : Option String := none
  dailyRate : Option ℚ := none
  hourlyRate : Option ℚ := none
deriving DecidableEq, Repr

/-- The raw (uncapped, unrounded) overdue amount, fineService.js lines 46-52:
hour-based accrual past `gracePeriod*24` hours when the configured rate type
is the string 'per_hour', day-based accrual past `gracePeriod` days otherwise. -/
def rawOverdueAmount (db : DB) (now : Int) (b : Borrow) : ℚ :=
  if db.rateType == "per_hour" then
    ((max 0 (diffHours now b.dueDate - db.gracePeriod * 24) : Int) : ℚ) * db.hourlyRate
  else
    ((max 0 (diffDays now b.dueDate - db.gracePeriod) : Int) : ℚ) * db.dailyRate

/-- `fineService.calculateOverdueFine(borrowId)`: pure computation of the
fine owed at time `now` (no writes). -/
def calculateOverdueFine (db : DB) (now : Int) (borrowId : Nat) : Except Err CalcResult :=
  match findBorrow db borrowId with
  | none => .error .invalidBorrow
  | some b =>
    if b.status == BorrowStatus.completed then .error .invalidBorrow
    else
      let overdueDays := diffDays now b.dueDate
      if overdueDays ≤ db.gracePeriod then
        .ok { fineAmount := 0, gracePeriodUsed := true }
      else
        let fineAmount := min (rawOverdueAmount db now b) db.maxFine
        .ok { fineAmount := round2 fineAmount, gracePeriodUsed := false,
              overdueDays := some overdueDays, rateType := some db.rateType,
              dailyRate := some db.dailyRate, hourlyRate := some db.hourlyRate }

/-- The Fine document assembled by `Fine.create` inside `createOverdueFine`
(fineService.js lines 96-107); `getD` supplies the fineSchema defaults that
mongoose would apply were a field undefined. -/
def mkOverdueFine (db : DB) (now : Int) (b : Borrow) (borrowId : Nat)
    (fc : CalcResult) : Fine :=
  { id := db.nextFineId
    user := b.user
    borrow := borrowId
    amount := fc.fineAmount
    ftype := .overdue
    status := .pending
    dueDate := now + 7 * minutesPerDay
    baseAmount := fc.fineAmount
    rateType := fc.rateType.getD "per_day"
    rate := if fc.rateType == some "per_hour" then fc.hourlyRate.getD 50
            else fc.dailyRate.getD 50
    gracePeriod := db.gracePeriod
    overdueDays := fc.overdueDays.getD 0 }

/-- `fineService.createOverdueFine(borrowId, issuedBy)` (the `issuedBy`
parameter is never read by the source body and is omitted). Returns
`.ok none` when the computed amount is 0 ("no fine needed"). The user's
existence is needed where the source first dereferences the populated
`borrow.user._id`, i.e. when building the `Fine.create` payload. -/
def createOverdueFine (env : Env) (now : Int) (db : DB) (borrowId : Nat) :
    Except Err (Option Fine) × DB :=
  match findBorrow db borrowId with
  | none => (.error .borrowNotFound, db)
  | some b =>
    if hasOverdueFine db borrowId then (.error .duplicateFine, db)
    else
      match calculateOverdueFine db now borrowId with
      | .error e => (.error e, db)
      | .ok fc =>
        if fc.fineAmount == 0 then (.ok none, db)
        else
          match findUser db b.user with
          | none => (.error .userNotFound, db)
          | some _ =>
            let fine := mkOverdueFine db now b borrowId fc
            let db1 := incBalance (addFine db fine) b.user fc.fineAmount
            match sendFineNotice env db1 fine with
            | (.error e, db2) => (.error e, db2)
            | (.ok _, db2) => (.ok (some fine), db2)

/-- `fineService.createLostBookFine(borrowId, issuedBy, replacementCost)`.
`replacementCost || borrow.book.price` short-circuits: the book's price is
read only when `replacementCost` is absent or falsy (0). -/
def createLostBookFine (env : Env) (now : Int) (db : DB) (borrowId : Nat)
    (replacementCost : Option ℚ) : Except Err Fine × DB :=
  match findBorrow db borrowId with
  | none => (.error .borrowNotFound, db)
  | some b =>
    if hasLostFine db borrowId then (.error .duplicateLostFine, db)
    else
      let priceOf : Option ℚ :=
        match replacementCost with
        | some c => if c == 0 then (findBook db b.book).map Book.price else some c
        | none => (findBook db b.book).map Book.price
      match priceOf with
      | none => (.error .bookNotFound, db)
      | some bookValue =>
        let fineAmount := bookValue * defaultConfig.lostBookMultiplier
        match findUser db b.user with
        | none => (.error .userNotFound, db)
        | some _ =>
          let fine : Fine :=
            { id := db.nextFineId, user := b.user, borrow := borrowId,
              amount := fineAmount, ftype := .lost, status := .pending,
              dueDate := now + 14 * minutesPerDay,
              baseAmount := fineAmount, rateType := "fixed", rate := 0,
              bookValue := bookValue, replacementCost := fineAmount }
          let db1 := addFine db fine
          let db2 := updateBorrow db1 borrowId fun x =>
            { x with isLost := true, lostAt := some now, status := .completed }
          let db3 := incBalance db2 b.user fineAmount
          match sendFineNotice env db3 fine with
          | (.error e, db4) => (.error e, db4)
          | (.ok _, db4) => (.ok fine, db4)

/-- `fineService.payFine(fineId, paidBy, ...)`: refuse already-paid fines,
`fine.markAsPaid(paidBy)`, decrement the user's balance by `fine.amount`,
then send a 'fine_paid' email notification. -/
def payFine (env : Env) (now : Int) (db : DB) (fineId : Nat) (paidBy : Nat) :
    Except Err Fine × DB :=
  match findFine db fineId with
  | none => (.error .fineNotFound, db)
  | some fine =>
    if fine.status == FineStatus.paid then (.error .alreadyPaid, db)
    else
      let db1 := updateFine db fineId fun f =>
        { f with status := .paid, paidAt := some now, paidBy := some paidBy }
      match findUser db1 fine.user with
      | none => (.error .userNotFound, db1)
      | some u =>
        let db2 := incBalance db1 fine.user (-fine.amount)
        match sendNotification env db2 u "fine_paid" [Channel.email] with
        | (.error e, db3) => (.error e, db3)
        | (.ok _, db3) =>
          (.ok { fine with status := .paid, paidAt := some now, paidBy := some paidBy }, db3)

/-- `fineService.waiveFine(fineId, waivedBy, reason)`: refuse already-paid
fines, `fine.waiveFine(waivedBy, reason)`, decrement the user's balance by
`fine.amount`, then send a 'fine_waived' email notification. -/
def waiveFine (env : Env) (now : Int) (db : DB) (fineId : Nat) (waivedBy : Nat)
    (reason : String) : Except Err Fine × DB :=
  match findFine db fineId with
  | none => (.error .fineNotFound, db)
  | some fine =>
    if fine.status == FineStatus.paid then (.error .cannotWaivePaid, db)
    else
      let db1 := updateFine db fineId fun f =>
        { f with status := .waived, waivedAt := some now,
                 waivedBy := some waivedBy, waiverReason := some reason }
      match findUser db1 fine.user with
      | none => (.error .userNotFound, db1)
      | some u =>
        let db2 := incBalance db1 fine.user (-fine.amount)
        match sendNotification env db2 u "fine_waived" [Channel.email] with
        | (.error e, db3) => (.error e, db3)
        | (.ok _, db3) =>
          (.ok { fine with status := .waived, waivedAt := some now,
                           waivedBy := some waivedBy, waiverReason := some reason }, db3)

/-- The sweep's query predicate: status 'active', due date in the past,
type 'borrowed'. -/
def isOverdueQuery (now : Int) (b : Borrow) : Bool :=
  b.status == BorrowStatus.active && decide (b.dueDate < now)
    && b.btype == BorrowType.borrowed

/-- `Borrow.find({ status: 'active', dueDate: { $lt: new Date() }, type: 'borrowed' })`. -/
def overdueBorrows (db : DB) (now : Int) : List Borrow :=
  db.borrows.filter (isOverdueQuery now)

/-- Result of the sweep. -/
structure SweepResult where
  processedCount : Nat
  totalOverdue : Nat
deriving DecidableEq, Repr

/-- The sweep's per-loan loop: skip loans that already carry an overdue-type
fine, otherwise attempt `createOverdueFine`; a per-loan error is caught and
logged (the count is not incremented, the batch continues). -/
def sweepGo (env : Env) (now : Int) : List Borrow → Nat → DB → Nat × DB
  | [], count, db => (count, db)
  | b :: rest, count, db =>
    if hasOverdueFine db b.id then sweepGo env now rest count db
    else
      match createOverdueFine env now db b.id with
      | (.ok _, db1) => sweepGo env now rest (count + 1) db1
      | (.error _, db1) => sweepGo env now rest count db1

/-- `fineService.processOverdueFines()` (the cron sweep). -/
def processOverdueFines (env : Env) (now : Int) (db : DB) : SweepResult × DB :=
  let od := overdueBorrows db now
  let p := sweepGo env now od 0 db
  ({ processedCount := p.1, totalOverdue := od.length }, p.2)

/-! ### Shared concrete scenario (spec §8: loan due 2024-01-01, user, book priced 1000)
2024-01-01T00:00 is taken as time 0; one day is 1440 minutes. -/

/-- The scenario loan: a borrowed, active loan due at time 0. -/
def exBorrow : Borrow :=
  { id := 1, user := 10, book := 20, btype := .borrowed, status := .active, dueDate := 0 }

/-- The scenario member, initial fine balance 0. -/
def exUser : UserRec := { id := 10, fineBalance := 0 }

/-- The scenario book, priced 1000. -/
def exBook : Book := { id := 20, price := 1000 }

/-- The scenario database, default configuration. -/
def exDB : DB := { borrows := [exBorrow], users := [exUser], books := [exBook] }

/-- Scenario database with a cap that is not a whole number of cents:
`max_fine_amount = 100.125`. -/
def c3DB : DB := { exDB with config := { max_fine_amount := some (801/8) } }

/-! ### Arithmetic helper lemmas -/

/-- Rounding to two decimals is monotone. -/
theorem round2_mono {x y : ℚ} (h : x ≤ y) : round2 x ≤ round2 y := by
  unfold round2 jsRound
  have h1 : (⌊x * 100 + 1/2⌋ : ℚ) ≤ (⌊y * 100 + 1/2⌋ : ℚ) := by
    exact_mod_cast Int.floor_le_floor (by linarith)
  linarith

/-! ### C1: grace-period floor -/

/-- C1: for every loan whose whole-day overdue count (`now - dueDate` in
days) is at most the configured grace period, `calculateOverdueFine`
returns `fineAmount = 0` and `gracePeriodUsed = true`, for every
configuration (hence regardless of daily rate, hourly rate and rate type). -/
theorem calculateOverdueFine_grace_floor (db : DB) (now : Int) (bid : Nat) (b : Borrow)
    (hb : findBorrow db bid = some b) (hst : b.status ≠ BorrowStatus.completed)
    (hg : diffDays now b.dueDate ≤ db.gracePeriod) :
    calculateOverdueFine db now bid = .ok { fineAmount := 0, gracePeriodUsed := true } := by
  unfold calculateOverdueFine
  rw [hb]
  simp [hst, hg]

/-- Witness for C1: the scenario loan evaluated one day after its due date
(grace period 2 by default). -/
theorem calculateOverdueFine_grace_floor_witness :
    findBorrow exDB 1 = some exBorrow ∧ exBorrow.status ≠ BorrowStatus.completed ∧
    diffDays 1440 exBorrow.dueDate ≤ exDB.gracePeriod ∧
    calculateOverdueFine exDB 1440 1 = .ok { fineAmount := 0, gracePeriodUsed := true } :=
  ⟨by decide, by decide, by decide,
    calculateOverdueFine_grace_floor exDB 1440 1 exBorrow (by decide) (by decide) (by decide)⟩

/-! ### Evaluation lemmas for the fined branch -/

/-- The result object produced by `calculateOverdueFine` when the loan is
past grace (lines 45-65 of fineService.js). -/
def finedCalc (db : DB) (now : Int) (b : Borrow) : CalcResult :=
  { fineAmount := round2 (min (rawOverdueAmount db now b) db.maxFine),
    gracePeriodUsed := false,
    overdueDays := some (diffDays now b.dueDate),
    rateType := some db.rateType,
    dailyRate := some db.dailyRate,
    hourlyRate := some db.hourlyRate }

/-- Past grace, `calculateOverdueFine` returns the capped, rounded amount. -/
theorem calculateOverdueFine_fined (db : DB) (now : Int) (bid : Nat) (b : Borrow)
    (hb : findBorrow db bid = some b) (hst : b.status ≠ BorrowStatus.completed)
    (hg : db.gracePeriod < diffDays now b.dueDate) :
    calculateOverdueFine db now bid = .ok (finedCalc db now b) := by
  unfold calculateOverdueFine finedCalc
  rw [hb]
  simp [hst, not_le.mpr hg]

/-- The fine amount `calculateOverdueFine` reports, `0` when it throws
(statement helper for the monotonicity property). -/
def fineAmountAt (db : DB) (now : Int) (bid : Nat) : ℚ :=
  match calculateOverdueFine db now bid with
  | .ok r => r.fineAmount
  | .error _ => 0

/-! ### C5: monotone accrual under per_day -/

/-- C5: for a fixed policy (grace period, daily rate — a nonnegative KES
amount — and cap) with the `per_day` rate type selected, the fine amount
computed by `calculateOverdueFine` is non-decreasing as the whole-day
overdue count grows beyond the grace period (up to, and then at, the cap). -/
theorem calculateOverdueFine_monotone_per_day (db : DB) (now1 now2 : Int) (bid : Nat)
    (b : Borrow)
    (hb : findBorrow db bid = some b) (hst : b.status ≠ BorrowStatus.completed)
    (hrt : db.rateType = "per_day") (hrate : 0 ≤ db.dailyRate)
    (h1 : db.gracePeriod < diffDays now1 b.dueDate)
    (h12 : diffDays now1 b.dueDate ≤ diffDays now2 b.dueDate) :
    fineAmountAt db now1 bid ≤ fineAmountAt db now2 bid := by
  have h2 : db.gracePeriod < diffDays now2 b.dueDate := lt_of_lt_of_le h1 h12
  unfold fineAmountAt
  rw [calculateOverdueFine_fined db now1 bid b hb hst h1,
      calculateOverdueFine_fined db now2 bid b hb hst h2]
  show round2 _ ≤ round2 _
  apply round2_mono
  apply min_le_min _ le_rfl
  unfold rawOverdueAmount
  rw [hrt]
  simp only [show (("per_day" == "per_hour") = false) from rfl, Bool.false_eq_true, if_false]
  have hmax : max 0 (diffDays now1 b.dueDate - db.gracePeriod)
      ≤ max 0 (diffDays now2 b.dueDate - db.gracePeriod) :=
    max_le_max le_rfl (by omega)
  have hcast : ((max 0 (diffDays now1 b.dueDate - db.gracePeriod) : Int) : ℚ)
      ≤ ((max 0 (diffDays now2 b.dueDate - db.gracePeriod) : Int) : ℚ) := by
    exact_mod_cast hmax
  exact mul_le_mul_of_nonneg_right hcast hrate

/-- Witness for C5: the scenario loan at 4 and 5 days overdue. -/
theorem calculateOverdueFine_monotone_per_day_witness :
    findBorrow exDB 1 = some exBorrow ∧ exBorrow.status ≠ BorrowStatus.completed ∧
    exDB.rateType = "per_day" ∧ (0 : ℚ) ≤ exDB.dailyRate ∧
    exDB.gracePeriod < diffDays 5760 exBorrow.dueDate ∧
    diffDays 5760 exBorrow.dueDate ≤ diffDays 7200 exBorrow.dueDate ∧
    fineAmountAt exDB 5760 1 ≤ fineAmountAt exDB 7200 1 :=
  ⟨by decide, by decide, by decide, by decide, by decide, by decide,
    calculateOverdueFine_monotone_per_day exDB 5760 7200 1 exBorrow
      (by decide) (by decide) (by decide) (by decide) (by decide) (by decide)⟩

/-! ### C3: cap enforcement (corrected: the cap itself is rounded) -/

/-- C3 (amended): for any input whose raw amount exceeds the configured
`maxFine`, the returned `fineAmount` equals `maxFine` rounded to two
decimals, `Math.round(maxFine*100)/100` — which is `maxFine` itself exactly
when `maxFine` is a whole number of cents, but not in general. -/
theorem calculateOverdueFine_cap_rounded (db : DB) (now : Int) (bid : Nat) (b : Borrow)
    (hb : findBorrow db bid = some b) (hst : b.status ≠ BorrowStatus.completed)
    (hg : db.gracePeriod < diffDays now b.dueDate)
    (hcap : db.maxFine < rawOverdueAmount db now b) :
    fineAmountAt db now bid = round2 db.maxFine := by
  unfold fineAmountAt
  rw [calculateOverdueFine_fined db now bid b hb hst hg]
  show round2 (min (rawOverdueAmount db now b) db.maxFine) = _
  rw [min_eq_right (le_of_lt hcap)]

set_option maxRecDepth 2000 in
/-- Witness for C3 (amended): scenario loan 5 days overdue (raw amount 150)
against a cap of 100.125; the returned amount is `round2 100.125 = 100.13`. -/
theorem calculateOverdueFine_cap_rounded_witness :
    findBorrow c3DB 1 = some exBorrow ∧ exBorrow.status ≠ BorrowStatus.completed ∧
    c3DB.gracePeriod < diffDays 7200 exBorrow.dueDate ∧
    c3DB.maxFine < rawOverdueAmount c3DB 7200 exBorrow ∧
    fineAmountAt c3DB 7200 1 = round2 c3DB.maxFine :=
  ⟨by decide, by decide, by decide, by with_unfolding_all decide,
    calculateOverdueFine_cap_rounded c3DB 7200 1 exBorrow
      (by decide) (by decide) (by decide) (by with_unfolding_all decide)⟩

set_option maxRecDepth 2000 in
/-- Counterexample for C3 as stated: with cap `maxFine = 100.125` and a raw
amount of 150 exceeding it, the returned `fineAmount` is 100.13, which is
not equal to `maxFine` (it even exceeds it). -/
theorem calculateOverdueFine_cap_not_exact :
    c3DB.maxFine < rawOverdueAmount c3DB 7200 exBorrow ∧
    fineAmountAt c3DB 7200 1 = 10013/100 ∧
    fineAmountAt c3DB 7200 1 ≠ c3DB.maxFine ∧
    c3DB.maxFine < fineAmountAt c3DB 7200 1 := by
  have hraw : rawOverdueAmount c3DB 7200 exBorrow = 150 := by with_unfolding_all decide
  have hcap : c3DB.maxFine < rawOverdueAmount c3DB 7200 exBorrow := by
    rw [hraw]; with_unfolding_all decide
  have hval : fineAmountAt c3DB 7200 1 = 10013/100 := by
    unfold fineAmountAt
    rw [calculateOverdueFine_fined c3DB 7200 1 exBorrow (by decide) (by decide) (by decide)]
    show round2 (min (rawOverdueAmount c3DB 7200 exBorrow) c3DB.maxFine) = _
    rw [hraw, min_eq_right (by with_unfolding_all decide : c3DB.maxFine ≤ (150 : ℚ))]
    show round2 (801/8 : ℚ) = 10013/100
    norm_num [round2, jsRound]
  refine ⟨hcap, hval, ?_, ?_⟩
  · rw [hval]; with_unfolding_all decide
  · rw [hval]; with_unfolding_all decide

/-! ### C4: concrete scenario (corrected: 100, not 150, at 2024-01-05) -/

set_option maxRecDepth 2000 in
/-- C4 (amended): for the loan due 2024-01-01 (time 0) with grace period 2
days, daily rate 50, `per_day` rate type and no cap hit,
`calculateOverdueFine` evaluated at 2024-01-05 (whole-day overdue count 4,
two chargeable days past the 2-day grace) returns `fineAmount = 100`; the
value 150 claimed by the spec is first returned at 2024-01-06. -/
theorem calculateOverdueFine_scenario_2024 :
    calculateOverdueFine exDB 5760 1 =
      .ok { fineAmount := 100, gracePeriodUsed := false, overdueDays := some 4,
            rateType := some "per_day", dailyRate := some 50, hourlyRate := some 5 } ∧
    calculateOverdueFine exDB 7200 1 =
      .ok { fineAmount := 150, gracePeriodUsed := false, overdueDays := some 5,
            rateType := some "per_day", dailyRate := some 50, hourlyRate := some 5 } := by
  constructor
  · rw [calculateOverdueFine_fined exDB 5760 1 exBorrow (by decide) (by decide) (by decide)]
    exact congrArg Except.ok (by with_unfolding_all decide)
  · rw [calculateOverdueFine_fined exDB 7200 1 exBorrow (by decide) (by decide) (by decide)]
    exact congrArg Except.ok (by with_unfolding_all decide)

set_option maxRecDepth 2000 in
/-- Counterexample for C4 as stated: at 2024-01-05 the returned amount is
100, not 150 (the whole-day difference between 2024-01-01 and 2024-01-05 is
4, so only `4 - 2 = 2` days are charged at rate 50). -/
theorem calculateOverdueFine_jan5_not_150 :
    fineAmountAt exDB 5760 1 = 100 ∧ fineAmountAt exDB 5760 1 ≠ 150 :=
  ⟨by with_unfolding_all decide, by with_unfolding_all decide⟩

/-! ### Helper lemmas about stores and notifications -/

/-- `find?` commutes with a map that does not change the predicate. -/
theorem find?_map_preserve {α : Type} (l : List α) (g : α → α) (p : α → Bool)
    (h : ∀ x, p (g x) = p x) : (l.map g).find? p = (l.find? p).map g := by
  rw [List.find?_map, show (p ∘ g) = p from funext h]

/-- Looking a user up after a balance increment. -/
theorem findUser_incBalance (db : DB) (uid : Nat) (d : ℚ) (v : Nat) :
    findUser (incBalance db uid d) v = (findUser db v).map
      (fun u => if u.id == uid then { u with fineBalance := u.fineBalance + d } else u) := by
  unfold findUser incBalance
  exact find?_map_preserve _ _ _ (fun u => by by_cases h : u.id == uid <;> simp [h])

/-- Looking a borrow up after `updateBorrow`. -/
theorem findBorrow_updateBorrow (db : DB) (bid : Nat) (g : Borrow → Borrow)
    (hg : ∀ x, (g x).id = x.id) (v : Nat) :
    findBorrow (updateBorrow db bid g) v = (findBorrow db v).map
      (fun x => if x.id == bid then g x else x) := by
  unfold findBorrow updateBorrow
  refine find?_map_preserve _ _ _ (fun x => ?_)
  by_cases h : x.id == bid <;> simp [h, hg]

/-- Looking a fine up after `updateFine`. -/
theorem findFine_updateFine (db : DB) (fid : Nat) (g : Fine → Fine)
    (hg : ∀ x, (g x).id = x.id) (v : Nat) :
    findFine (updateFine db fid g) v = (findFine db v).map
      (fun x => if x.id == fid then g x else x) := by
  unfold findFine updateFine
  refine find?_map_preserve _ _ _ (fun x => ?_)
  by_cases h : x.id == fid <;> simp [h, hg]

/-- A fresh-id fine appended at the end is found by `findFine`. -/
theorem findFine_addFine (db : DB) (f : Fine)
    (hfresh : ∀ g ∈ db.fines, g.id ≠ f.id) :
    findFine (addFine db f) f.id = some f := by
  unfold findFine addFine
  rw [List.find?_append]
  have h1 : db.fines.find? (fun x => x.id == f.id) = none :=
    List.find?_eq_none.mpr (fun x hx => by simp [hfresh x hx])
  rw [h1]
  simp

/-- `sendNotification` when the notification record write fails: the error
is returned and the state is untouched. -/
theorem sendNotification_fail (env : Env) (db : DB) (u : UserRec) (t : String)
    (cs : List Channel) (h : env.notifCreateFails = true) :
    sendNotification env db u t cs = (.error .notificationFailed, db) := by
  unfold sendNotification
  rw [h]
  rfl

/-- `sendNotification` when the record write succeeds: transport failures on
individual channels are swallowed, the call returns `.ok` and only appends
the notification record. -/
theorem sendNotification_ok (env : Env) (db : DB) (u : UserRec) (t : String)
    (cs : List Channel) (h : env.notifCreateFails = false) :
    ∃ o n, sendNotification env db u t cs = (.ok o, { db with notifs := db.notifs ++ [n] }) := by
  unfold sendNotification
  rw [h]
  exact ⟨_, _, rfl⟩

/-- `sendFineNotice` when the record write fails. -/
theorem sendFineNotice_fail (env : Env) (db : DB) (f : Fine)
    (hu : (findUser db f.user).isSome = true) (h : env.notifCreateFails = true) :
    sendFineNotice env db f = (.error .notificationFailed, db) := by
  obtain ⟨u, hu'⟩ := Option.isSome_iff_exists.mp hu
  unfold sendFineNotice
  rw [hu']
  exact sendNotification_fail env db u _ _ h

/-- `sendFineNotice` when the record write succeeds. -/
theorem sendFineNotice_ok (env : Env) (db : DB) (f : Fine)
    (hu : (findUser db f.user).isSome = true) (h : env.notifCreateFails = false) :
    ∃ o n, sendFineNotice env db f = (.ok o, { db with notifs := db.notifs ++ [n] }) := by
  obtain ⟨u, hu'⟩ := Option.isSome_iff_exists.mp hu
  unfold sendFineNotice
  rw [hu']
  exact sendNotification_ok env db u _ _ h

/-- Rounding to two decimals keeps amounts at least 1 at least 1. -/
theorem round2_one_le {x : ℚ} (h : 1 ≤ x) : 1 ≤ round2 x := by
  have h1 : round2 1 = 1 := by norm_num [round2, jsRound]
  calc (1 : ℚ) = round2 1 := h1.symm
    _ ≤ round2 x := round2_mono h

/-! ### Characterization of a successful `createOverdueFine` -/

/-- The fine document `createOverdueFine` persists for a loan past grace. -/
def newOverdueFine (db : DB) (now : Int) (b : Borrow) (bid : Nat) : Fine :=
  mkOverdueFine db now b bid (finedCalc db now b)

/-- Running `createOverdueFine` on an uncompleted loan past grace with no
existing overdue fine, an existing user, and a capped amount of at least 1:
the fine is persisted and the balance incremented unconditionally; the call
returns the fine when the notification record write succeeds and surfaces
`notificationFailed` when it does not. -/
theorem createOverdueFine_run (env : Env) (now : Int) (db : DB) (bid : Nat) (b : Borrow)
    (hb : findBorrow db bid = some b) (hst : b.status ≠ BorrowStatus.completed)
    (hno : hasOverdueFine db bid = false)
    (hg : db.gracePeriod < diffDays now b.dueDate)
    (hpos : 1 ≤ min (rawOverdueAmount db now b) db.maxFine)
    (hu : (findUser db b.user).isSome = true) :
    (createOverdueFine env now db bid).1
      = (if env.notifCreateFails then .error .notificationFailed
         else .ok (some (newOverdueFine db now b bid))) ∧
    ∃ ns, (createOverdueFine env now db bid).2 =
      { incBalance (addFine db (newOverdueFine db now b bid)) b.user
          (newOverdueFine db now b bid).amount with notifs := ns } := by
  have hamount : 1 ≤ (finedCalc db now b).fineAmount := round2_one_le hpos
  have hne : ((finedCalc db now b).fineAmount == 0) = false := by
    simp only [beq_eq_false_iff_ne]
    intro h0
    rw [h0] at hamount
    norm_num at hamount
  obtain ⟨u, hu'⟩ := Option.isSome_iff_exists.mp hu
  unfold newOverdueFine
  unfold createOverdueFine
  rw [hb]
  simp only [hno, Bool.false_eq_true, if_false,
    calculateOverdueFine_fined db now bid b hb hst hg, hne, hu']
  simp only [show (mkOverdueFine db now b bid (finedCalc db now b)).amount
      = (finedCalc db now b).fineAmount from rfl]
  set F : Fine := mkOverdueFine db now b bid (finedCalc db now b) with hF
  set DB1 : DB := incBalance (addFine db F) b.user (finedCalc db now b).fineAmount with hDB1
  have hu1 : (findUser DB1 F.user).isSome = true := by
    rw [show F.user = b.user from rfl, hDB1, findUser_incBalance,
      show findUser (addFine db F) b.user = findUser db b.user from rfl, hu']
    rfl
  cases henv : env.notifCreateFails with
  | true =>
    rw [sendFineNotice_fail env DB1 F hu1 henv]
    exact ⟨rfl, DB1.notifs, rfl⟩
  | false =>
    obtain ⟨o, n, hsend⟩ := sendFineNotice_ok env DB1 F hu1 henv
    rw [hsend]
    exact ⟨rfl, DB1.notifs ++ [n], rfl⟩

/-! ### Characterization of payFine / waiveFine -/

/-- Running `payFine` on an existing, not-yet-paid fine whose user exists:
the fine is marked paid and the balance decremented by its amount; the call
returns the paid fine unless the notification record write fails. -/
theorem payFine_run (env : Env) (now : Int) (db : DB) (fid : Nat) (payer : Nat) (f : Fine)
    (hf : findFine db fid = some f) (hstat : (f.status == FineStatus.paid) = false)
    (hu : (findUser db f.user).isSome = true) :
    (payFine env now db fid payer).1
      = (if env.notifCreateFails then .error .notificationFailed
         else .ok { f with status := .paid, paidAt := some now, paidBy := some payer }) ∧
    ∃ ns, (payFine env now db fid payer).2 =
      { incBalance (updateFine db fid fun g =>
          { g with status := .paid, paidAt := some now, paidBy := some payer })
          f.user (-f.amount) with notifs := ns } := by
  obtain ⟨u, hu'⟩ := Option.isSome_iff_exists.mp hu
  unfold payFine
  rw [hf]
  simp only [hstat, Bool.false_eq_true, if_false]
  set DB1 : DB := updateFine db fid fun g =>
    { g with status := .paid, paidAt := some now, paidBy := some payer } with hDB1
  have hux : findUser DB1 f.user = some u := by
    rw [show findUser DB1 f.user = findUser db f.user from rfl, hu']
  simp only [hux]
  set DB2 : DB := incBalance DB1 f.user (-f.amount) with hDB2
  cases henv : env.notifCreateFails with
  | true =>
    rw [sendNotification_fail env DB2 u "fine_paid" [Channel.email] henv]
    exact ⟨rfl, DB2.notifs, rfl⟩
  | false =>
    obtain ⟨o, n, hsend⟩ := sendNotification_ok env DB2 u "fine_paid" [Channel.email] henv
    rw [hsend]
    exact ⟨rfl, DB2.notifs ++ [n], rfl⟩

/-- Running `waiveFine` on an existing, not-yet-paid fine whose user exists:
the fine is marked waived and the balance decremented by its amount. -/
theorem waiveFine_run (env : Env) (now : Int) (db : DB) (fid : Nat) (waiver : Nat)
    (reason : String) (f : Fine)
    (hf : findFine db fid = some f) (hstat : (f.status == FineStatus.paid) = false)
    (hu : (findUser db f.user).isSome = true) :
    (waiveFine env now db fid waiver reason).1
      = (if env.notifCreateFails then .error .notificationFailed
         else .ok { f with
                    status := .waived, waivedAt := some now,
                    waivedBy := some waiver, waiverReason := some reason }) ∧
    ∃ ns, (waiveFine env now db fid waiver reason).2 =
      { incBalance (updateFine db fid fun g =>
          { g with
            status := .waived, waivedAt := some now,
            waivedBy := some waiver, waiverReason := some reason })
          f.user (-f.amount) with notifs := ns } := by
  obtain ⟨u, hu'⟩ := Option.isSome_iff_exists.mp hu
  unfold waiveFine
  rw [hf]
  simp only [hstat, Bool.false_eq_true, if_false]
  set DB1 : DB := updateFine db fid fun g =>
    { g with
      status := .waived, waivedAt := some now,
      waivedBy := some waiver, waiverReason := some reason } with hDB1
  have hux : findUser DB1 f.user = some u := by
    rw [show findUser DB1 f.user = findUser db f.user from rfl, hu']
  simp only [hux]
  set DB2 : DB := incBalance DB1 f.user (-f.amount) with hDB2
  cases henv : env.notifCreateFails with
  | true =>
    rw [sendNotification_fail env DB2 u "fine_waived" [Channel.email] henv]
    exact ⟨rfl, DB2.notifs, rfl⟩
  | false =>
    obtain ⟨o, n, hsend⟩ := sendNotification_ok env DB2 u "fine_waived" [Channel.email] henv
    rw [hsend]
    exact ⟨rfl, DB2.notifs ++ [n], rfl⟩

/-- `payFine` on a paid fine fails with `AlreadyPaid` and changes nothing. -/
theorem payFine_alreadyPaid (env : Env) (now : Int) (db : DB) (fid : Nat) (payer : Nat)
    (f : Fine) (hf : findFine db fid = some f) (hstat : f.status = FineStatus.paid) :
    payFine env now db fid payer = (.error .alreadyPaid, db) := by
  unfold payFine
  rw [hf]
  simp [hstat]

/-- `waiveFine` on a paid fine fails with `CannotWaivePaid`, changing nothing. -/
theorem waiveFine_cannotWaivePaid (env : Env) (now : Int) (db : DB) (fid : Nat)
    (waiver : Nat) (reason : String) (f : Fine)
    (hf : findFine db fid = some f) (hstat : f.status = FineStatus.paid) :
    waiveFine env now db fid waiver reason = (.error .cannotWaivePaid, db) := by
  unfold waiveFine
  rw [hf]
  simp [hstat]

/-! ### Characterization of a successful `createLostBookFine` -/

/-- The fine document `createLostBookFine` persists for a lost book of
value `bookValue`, charged at the default lost-book multiplier (2x). -/
def newLostFine (db : DB) (now : Int) (b : Borrow) (bid : Nat) (bookValue : ℚ) : Fine :=
  { id := db.nextFineId, user := b.user, borrow := bid,
    amount := bookValue * defaultConfig.lostBookMultiplier, ftype := .lost, status := .pending,
    dueDate := now + 14 * minutesPerDay,
    baseAmount := bookValue * defaultConfig.lostBookMultiplier, rateType := "fixed", rate := 0,
    bookValue := bookValue, replacementCost := bookValue * defaultConfig.lostBookMultiplier }

/-- Running `createLostBookFine` with no replacement-cost argument on a loan
with no existing lost-type fine, an existing book and user: a fine of twice
the book's price is persisted, the loan is marked lost and completed, and
the user's balance is incremented by the fine amount. -/
theorem createLostBookFine_run (env : Env) (now : Int) (db : DB) (bid : Nat) (b : Borrow)
    (bk : Book)
    (hb : findBorrow db bid = some b) (hnl : hasLostFine db bid = false)
    (hbk : findBook db b.book = some bk)
    (hu : (findUser db b.user).isSome = true) :
    (createLostBookFine env now db bid none).1
      = (if env.notifCreateFails then .error .notificationFailed
         else .ok (newLostFine db now b bid bk.price)) ∧
    ∃ ns, (createLostBookFine env now db bid none).2 =
      { incBalance (updateBorrow (addFine db (newLostFine db now b bid bk.price)) bid
          fun x => { x with isLost := true, lostAt := some now, status := .completed })
          b.user (newLostFine db now b bid bk.price).amount with notifs := ns } := by
  obtain ⟨u, hu'⟩ := Option.isSome_iff_exists.mp hu
  unfold newLostFine
  unfold createLostBookFine
  rw [hb]
  simp only [hnl, Bool.false_eq_true, if_false, hbk, Option.map_some, Option.map_some', hu']
  set F : Fine := ⟨db.nextFineId, b.user, bid, bk.price * defaultConfig.lostBookMultiplier,
    .lost, .pending, now + 14 * minutesPerDay, none, none, none, none, none,
    bk.price * defaultConfig.lostBookMultiplier, "fixed", 0, 0, 0, bk.price,
    bk.price * defaultConfig.lostBookMultiplier⟩ with hF
  set DB3 : DB := incBalance (updateBorrow (addFine db F) bid
    fun x => { x with isLost := true, lostAt := some now, status := .completed })
    b.user (bk.price * defaultConfig.lostBookMultiplier) with hDB3
  have hu1 : (findUser DB3 F.user).isSome = true := by
    rw [show F.user = b.user from rfl, hDB3, findUser_incBalance,
      show findUser (updateBorrow (addFine db F) bid
        fun x => { x with isLost := true, lostAt := some now, status := .completed }) b.user
        = findUser db b.user from rfl, hu']
    rfl
  cases henv : env.notifCreateFails with
  | true =>
    rw [sendFineNotice_fail env DB3 F hu1 henv]
    exact ⟨rfl, DB3.notifs, rfl⟩
  | false =>
    obtain ⟨o, n, hsend⟩ := sendFineNotice_ok env DB3 F hu1 henv
    rw [hsend]
    exact ⟨rfl, DB3.notifs ++ [n], rfl⟩

/-! ### Balance-reading helpers -/

/-- Incrementing a user's balance and reading it back. -/
theorem findUser_incBalance_self (db : DB) (u : UserRec) (uid : Nat) (d : ℚ)
    (hu : findUser db uid = some u) :
    findUser (incBalance db uid d) uid
      = some { u with fineBalance := u.fineBalance + d } := by
  rw [findUser_incBalance, hu]
  have hid := List.find?_some (show db.users.find? (fun x => x.id == uid) = some u from hu)
  simp only [Option.map_some, Option.map_some']
  rw [if_pos hid]

/-! ### C7: paid fines are terminal -/

/-- C7: once a fine's status is `paid` it is terminal: `payFine` on it fails
with `AlreadyPaid` and `waiveFine` fails with `CannotWaivePaid`, each
returning the database unchanged (fine and user balance untouched). -/
theorem paid_fine_terminal (env : Env) (now : Int) (db : DB) (fid : Nat)
    (payer waiver : Nat) (reason : String) (f : Fine)
    (hf : findFine db fid = some f) (hstat : f.status = FineStatus.paid) :
    payFine env now db fid payer = (.error .alreadyPaid, db) ∧
    waiveFine env now db fid waiver reason = (.error .cannotWaivePaid, db) :=
  ⟨payFine_alreadyPaid env now db fid payer f hf hstat,
   waiveFine_cannotWaivePaid env now db fid waiver reason f hf hstat⟩

/-- A paid fine of amount 150 on the scenario loan (settled at some point). -/
def paidFine : Fine :=
  { id := 0, user := 10, borrow := 1, amount := 150, ftype := .overdue, status := .paid,
    dueDate := 17280, paidAt := some 17280, paidBy := some 99, baseAmount := 150,
    rateType := "per_day", rate := 50, gracePeriod := 2, overdueDays := 5 }

/-- Scenario database holding the paid fine. -/
def c7DB : DB := { exDB with fines := [paidFine], nextFineId := 1 }

/-- Witness for C7: both operations refuse the paid fine and leave the
database unchanged. -/
theorem paid_fine_terminal_witness :
    findFine c7DB 0 = some paidFine ∧ paidFine.status = FineStatus.paid ∧
    payFine {} 0 c7DB 0 99 = (.error .alreadyPaid, c7DB) ∧
    waiveFine {} 0 c7DB 0 99 "hardship" = (.error .cannotWaivePaid, c7DB) :=
  ⟨by decide, by decide,
   (paid_fine_terminal {} 0 c7DB 0 99 99 "hardship" paidFine (by decide) (by decide)).1,
   (paid_fine_terminal {} 0 c7DB 0 99 99 "hardship" paidFine (by decide) (by decide)).2⟩

/-- Adding `d` and then subtracting it returns a user record to its
original state. -/
theorem balance_roundtrip (u : UserRec) (d : ℚ) :
    { u with fineBalance := u.fineBalance + d + -d } = u := by
  cases u
  simp only [UserRec.mk.injEq, true_and, and_true]
  ring

/-! ### C6: balance conservation under create→pay / create→waive -/

/-- C6: creating an overdue fine increments the user's balance by the fine
amount; paying (or waiving) that fine decrements the balance by the same
amount, returning the user record exactly to its pre-fine state. -/
theorem fine_balance_conservation
    (env : Env) (now payTime : Int) (db : DB) (bid : Nat) (b : Borrow) (u : UserRec)
    (payer waiver : Nat) (reason : String)
    (hb : findBorrow db bid = some b) (hst : b.status ≠ BorrowStatus.completed)
    (hno : hasOverdueFine db bid = false)
    (hg : db.gracePeriod < diffDays now b.dueDate)
    (hpos : 1 ≤ min (rawOverdueAmount db now b) db.maxFine)
    (hu : findUser db b.user = some u)
    (hfresh : ∀ g ∈ db.fines, g.id ≠ db.nextFineId)
    (henv : env.notifCreateFails = false) :
    (createOverdueFine env now db bid).1 = .ok (some (newOverdueFine db now b bid)) ∧
    findUser (createOverdueFine env now db bid).2 b.user
      = some { u with fineBalance := u.fineBalance + (newOverdueFine db now b bid).amount } ∧
    findUser (payFine env payTime (createOverdueFine env now db bid).2
        (newOverdueFine db now b bid).id payer).2 b.user = some u ∧
    findUser (waiveFine env payTime (createOverdueFine env now db bid).2
        (newOverdueFine db now b bid).id waiver reason).2 b.user = some u := by
  have huS : (findUser db b.user).isSome = true := by rw [hu]; rfl
  obtain ⟨h1, ns, h2⟩ := createOverdueFine_run env now db bid b hb hst hno hg hpos huS
  rw [henv] at h1
  simp only [Bool.false_eq_true, if_false] at h1
  refine ⟨h1, ?_, ?_, ?_⟩
  · rw [h2]
    exact findUser_incBalance_self (addFine db (newOverdueFine db now b bid)) u b.user
      (newOverdueFine db now b bid).amount hu
  · -- pay branch
    have hff : findFine (createOverdueFine env now db bid).2 (newOverdueFine db now b bid).id
        = some (newOverdueFine db now b bid) := by
      rw [h2]
      exact findFine_addFine db (newOverdueFine db now b bid) hfresh
    have hbal1 : findUser (createOverdueFine env now db bid).2 b.user
        = some { u with fineBalance := u.fineBalance + (newOverdueFine db now b bid).amount } := by
      rw [h2]
      exact findUser_incBalance_self (addFine db (newOverdueFine db now b bid)) u b.user
        (newOverdueFine db now b bid).amount hu
    have hfuS : (findUser (createOverdueFine env now db bid).2
        (newOverdueFine db now b bid).user).isSome = true := by
      rw [show (newOverdueFine db now b bid).user = b.user from rfl, hbal1]; rfl
    obtain ⟨p1, ns', p2⟩ := payFine_run env payTime (createOverdueFine env now db bid).2
      (newOverdueFine db now b bid).id payer (newOverdueFine db now b bid) hff rfl hfuS
    rw [p2]
    have := findUser_incBalance_self
      (updateFine (createOverdueFine env now db bid).2 (newOverdueFine db now b bid).id
        fun g => { g with status := .paid, paidAt := some payTime, paidBy := some payer })
      { u with fineBalance := u.fineBalance + (newOverdueFine db now b bid).amount }
      b.user (-(newOverdueFine db now b bid).amount) hbal1
    exact this.trans (congrArg some (balance_roundtrip u (newOverdueFine db now b bid).amount))
  · -- waive branch
    have hff : findFine (createOverdueFine env now db bid).2 (newOverdueFine db now b bid).id
        = some (newOverdueFine db now b bid) := by
      rw [h2]
      exact findFine_addFine db (newOverdueFine db now b bid) hfresh
    have hbal1 : findUser (createOverdueFine env now db bid).2 b.user
        = some { u with fineBalance := u.fineBalance + (newOverdueFine db now b bid).amount } := by
      rw [h2]
      exact findUser_incBalance_self (addFine db (newOverdueFine db now b bid)) u b.user
        (newOverdueFine db now b bid).amount hu
    have hfuS : (findUser (createOverdueFine env now db bid).2
        (newOverdueFine db now b bid).user).isSome = true := by
      rw [show (newOverdueFine db now b bid).user = b.user from rfl, hbal1]; rfl
    obtain ⟨p1, ns', p2⟩ := waiveFine_run env payTime (createOverdueFine env now db bid).2
      (newOverdueFine db now b bid).id waiver reason (newOverdueFine db now b bid) hff rfl hfuS
    rw [p2]
    have := findUser_incBalance_self
      (updateFine (createOverdueFine env now db bid).2 (newOverdueFine db now b bid).id
        fun g => { g with
          status := .waived, waivedAt := some payTime,
          waivedBy := some waiver, waiverReason := some reason })
      { u with fineBalance := u.fineBalance + (newOverdueFine db now b bid).amount }
      b.user (-(newOverdueFine db now b bid).amount) hbal1
    exact this.trans (congrArg some (balance_roundtrip u (newOverdueFine db now b bid).amount))

/-- Witness for C6: the scenario loan, 5 days overdue (fine 150), created
then paid (and, in the alternative branch, waived), with the balance at 0
before and after. -/
theorem fine_balance_conservation_witness :
    findBorrow exDB 1 = some exBorrow ∧ exBorrow.status ≠ BorrowStatus.completed ∧
    hasOverdueFine exDB 1 = false ∧
    exDB.gracePeriod < diffDays 7200 exBorrow.dueDate ∧
    1 ≤ min (rawOverdueAmount exDB 7200 exBorrow) exDB.maxFine ∧
    findUser exDB 10 = some exUser ∧
    (∀ g ∈ exDB.fines, g.id ≠ exDB.nextFineId) ∧
    ((createOverdueFine {} 7200 exDB 1).1 = .ok (some (newOverdueFine exDB 7200 exBorrow 1)) ∧
     findUser (createOverdueFine {} 7200 exDB 1).2 10
       = some { exUser with
                fineBalance := exUser.fineBalance + (newOverdueFine exDB 7200 exBorrow 1).amount } ∧
     findUser (payFine {} 7300 (createOverdueFine {} 7200 exDB 1).2
         (newOverdueFine exDB 7200 exBorrow 1).id 99).2 10 = some exUser ∧
     findUser (waiveFine {} 7300 (createOverdueFine {} 7200 exDB 1).2
         (newOverdueFine exDB 7200 exBorrow 1).id 98 "lenient").2 10 = some exUser) :=
  ⟨by decide, by decide, by decide, by decide, by with_unfolding_all decide, by decide,
   by decide,
   fine_balance_conservation {} 7200 7300 exDB 1 exBorrow exUser 99 98 "lenient"
     (by decide) (by decide) (by decide) (by decide) (by with_unfolding_all decide)
     (by decide) (by decide) (by decide)⟩

/-- Waiving and then paying subtracts the amount twice, leaving the balance
one amount below its original value. -/
theorem balance_double_decrement (u : UserRec) (d : ℚ) :
    { u with fineBalance := u.fineBalance + d + -d + -d }
      = { u with fineBalance := u.fineBalance - d } := by
  cases u
  simp only [UserRec.mk.injEq, true_and, and_true]
  ring

/-! ### C10: payFine accepts waived fines and decrements the balance again -/

/-- C10: `payFine` rejects only fines whose status is `paid`. Called on a
fine that was already waived, it succeeds, transitions the fine to `paid`,
and decrements the user's balance by the fine's amount a second time (the
waiver already decremented it once), leaving the balance strictly below its
pre-fine value. -/
theorem payFine_on_waived_double_decrement
    (env : Env) (now t1 t2 : Int) (db : DB) (bid : Nat) (b : Borrow) (u : UserRec)
    (payer waiver : Nat) (reason : String)
    (hb : findBorrow db bid = some b) (hst : b.status ≠ BorrowStatus.completed)
    (hno : hasOverdueFine db bid = false)
    (hg : db.gracePeriod < diffDays now b.dueDate)
    (hpos : 1 ≤ min (rawOverdueAmount db now b) db.maxFine)
    (hu : findUser db b.user = some u)
    (hfresh : ∀ g ∈ db.fines, g.id ≠ db.nextFineId)
    (henv : env.notifCreateFails = false) :
    (waiveFine env t1 (createOverdueFine env now db bid).2
        (newOverdueFine db now b bid).id waiver reason).1
      = .ok { newOverdueFine db now b bid with
              status := .waived, waivedAt := some t1,
              waivedBy := some waiver, waiverReason := some reason } ∧
    (payFine env t2 (waiveFine env t1 (createOverdueFine env now db bid).2
        (newOverdueFine db now b bid).id waiver reason).2
        (newOverdueFine db now b bid).id payer).1
      = .ok { newOverdueFine db now b bid with
              status := .paid, paidAt := some t2, paidBy := some payer,
              waivedAt := some t1, waivedBy := some waiver, waiverReason := some reason } ∧
    findUser (payFine env t2 (waiveFine env t1 (createOverdueFine env now db bid).2
        (newOverdueFine db now b bid).id waiver reason).2
        (newOverdueFine db now b bid).id payer).2 b.user
      = some { u with fineBalance := u.fineBalance - (newOverdueFine db now b bid).amount } ∧
    u.fineBalance - (newOverdueFine db now b bid).amount < u.fineBalance := by
  have huS : (findUser db b.user).isSome = true := by rw [hu]; rfl
  obtain ⟨h1, ns, h2⟩ := createOverdueFine_run env now db bid b hb hst hno hg hpos huS
  have hff : findFine (createOverdueFine env now db bid).2 (newOverdueFine db now b bid).id
      = some (newOverdueFine db now b bid) := by
    rw [h2]
    exact findFine_addFine db (newOverdueFine db now b bid) hfresh
  have hbal1 : findUser (createOverdueFine env now db bid).2 b.user
      = some { u with fineBalance := u.fineBalance + (newOverdueFine db now b bid).amount } := by
    rw [h2]
    exact findUser_incBalance_self (addFine db (newOverdueFine db now b bid)) u b.user
      (newOverdueFine db now b bid).amount hu
  have hfuS : (findUser (createOverdueFine env now db bid).2
      (newOverdueFine db now b bid).user).isSome = true := by
    rw [show (newOverdueFine db now b bid).user = b.user from rfl, hbal1]; rfl
  obtain ⟨w1, nsw, w2⟩ := waiveFine_run env t1 (createOverdueFine env now db bid).2
    (newOverdueFine db now b bid).id waiver reason (newOverdueFine db now b bid) hff rfl hfuS
  rw [henv] at w1
  simp only [Bool.false_eq_true, if_false] at w1
  refine ⟨w1, ?_⟩
  -- state after the waiver
  have hffw : findFine (waiveFine env t1 (createOverdueFine env now db bid).2
      (newOverdueFine db now b bid).id waiver reason).2 (newOverdueFine db now b bid).id
      = some { newOverdueFine db now b bid with
               status := .waived, waivedAt := some t1,
               waivedBy := some waiver, waiverReason := some reason } := by
    rw [w2]
    have := findFine_updateFine (createOverdueFine env now db bid).2
      (newOverdueFine db now b bid).id
      (fun g => { g with
        status := .waived, waivedAt := some t1,
        waivedBy := some waiver, waiverReason := some reason })
      (fun x => rfl) (newOverdueFine db now b bid).id
    rw [show findFine
        { incBalance (updateFine (createOverdueFine env now db bid).2
            (newOverdueFine db now b bid).id fun g =>
              { g with
                status := .waived, waivedAt := some t1,
                waivedBy := some waiver, waiverReason := some reason })
            (newOverdueFine db now b bid).user (-(newOverdueFine db now b bid).amount)
          with notifs := nsw } (newOverdueFine db now b bid).id
      = findFine (updateFine (createOverdueFine env now db bid).2
            (newOverdueFine db now b bid).id fun g =>
              { g with
                status := .waived, waivedAt := some t1,
                waivedBy := some waiver, waiverReason := some reason })
            (newOverdueFine db now b bid).id from rfl]
    rw [this, hff]
    simp
  have hbal2 : findUser (waiveFine env t1 (createOverdueFine env now db bid).2
      (newOverdueFine db now b bid).id waiver reason).2 b.user
      = some { u with fineBalance :=
                 u.fineBalance + (newOverdueFine db now b bid).amount
                   + -(newOverdueFine db now b bid).amount } := by
    rw [w2]
    exact findUser_incBalance_self
      (updateFine (createOverdueFine env now db bid).2 (newOverdueFine db now b bid).id
        fun g => { g with
          status := .waived, waivedAt := some t1,
          waivedBy := some waiver, waiverReason := some reason })
      { u with fineBalance := u.fineBalance + (newOverdueFine db now b bid).amount }
      b.user (-(newOverdueFine db now b bid).amount) hbal1
  have hfuS2 : (findUser (waiveFine env t1 (createOverdueFine env now db bid).2
      (newOverdueFine db now b bid).id waiver reason).2
      { newOverdueFine db now b bid with
        status := .waived, waivedAt := some t1,
        waivedBy := some waiver, waiverReason := some reason }.user).isSome = true := by
    rw [show ({ newOverdueFine db now b bid with
        status := .waived, waivedAt := some t1,
        waivedBy := some waiver, waiverReason := some reason } : Fine).user = b.user from rfl,
      hbal2]
    rfl
  obtain ⟨p1, nsp, p2⟩ := payFine_run env t2
    (waiveFine env t1 (createOverdueFine env now db bid).2
      (newOverdueFine db now b bid).id waiver reason).2
    (newOverdueFine db now b bid).id payer
    { newOverdueFine db now b bid with
      status := .waived, waivedAt := some t1,
      waivedBy := some waiver, waiverReason := some reason } hffw rfl hfuS2
  rw [henv] at p1
  simp only [Bool.false_eq_true, if_false] at p1
  refine ⟨p1, ?_, ?_⟩
  · rw [p2]
    have := findUser_incBalance_self
      (updateFine (waiveFine env t1 (createOverdueFine env now db bid).2
          (newOverdueFine db now b bid).id waiver reason).2
        (newOverdueFine db now b bid).id
        fun g => { g with status := .paid, paidAt := some t2, paidBy := some payer })
      { u with fineBalance :=
          u.fineBalance + (newOverdueFine db now b bid).amount
            + -(newOverdueFine db now b bid).amount }
      b.user (-(newOverdueFine db now b bid).amount) hbal2
    exact this.trans (congrArg some
      (balance_double_decrement u (newOverdueFine db now b bid).amount))
  · have hamt : 1 ≤ (newOverdueFine db now b bid).amount := round2_one_le hpos
    have : (0 : ℚ) < (newOverdueFine db now b bid).amount := lt_of_lt_of_le one_pos hamt
    exact sub_lt_self u.fineBalance this

/-- Witness for C10: the scenario fine of 150 is waived and then paid; the
final balance is 150 below its pre-fine value of 0. -/
theorem payFine_on_waived_double_decrement_witness :
    findBorrow exDB 1 = some exBorrow ∧ exBorrow.status ≠ BorrowStatus.completed ∧
    hasOverdueFine exDB 1 = false ∧
    exDB.gracePeriod < diffDays 7200 exBorrow.dueDate ∧
    1 ≤ min (rawOverdueAmount exDB 7200 exBorrow) exDB.maxFine ∧
    findUser exDB 10 = some exUser ∧
    (∀ g ∈ exDB.fines, g.id ≠ exDB.nextFineId) ∧
    ((waiveFine {} 7300 (createOverdueFine {} 7200 exDB 1).2
        (newOverdueFine exDB 7200 exBorrow 1).id 98 "lenient").1
      = .ok { newOverdueFine exDB 7200 exBorrow 1 with
              status := .waived, waivedAt := some 7300,
              waivedBy := some 98, waiverReason := some "lenient" } ∧
     (payFine {} 7400 (waiveFine {} 7300 (createOverdueFine {} 7200 exDB 1).2
        (newOverdueFine exDB 7200 exBorrow 1).id 98 "lenient").2
        (newOverdueFine exDB 7200 exBorrow 1).id 99).1
      = .ok { newOverdueFine exDB 7200 exBorrow 1 with
              status := .paid, paidAt := some 7400, paidBy := some 99,
              waivedAt := some 7300, waivedBy := some 98, waiverReason := some "lenient" } ∧
     findUser (payFine {} 7400 (waiveFine {} 7300 (createOverdueFine {} 7200 exDB 1).2
        (newOverdueFine exDB 7200 exBorrow 1).id 98 "lenient").2
        (newOverdueFine exDB 7200 exBorrow 1).id 99).2 10
      = some { exUser with
               fineBalance := exUser.fineBalance - (newOverdueFine exDB 7200 exBorrow 1).amount } ∧
     exUser.fineBalance - (newOverdueFine exDB 7200 exBorrow 1).amount < exUser.fineBalance) :=
  ⟨by decide, by decide, by decide, by decide, by with_unfolding_all decide, by decide,
   by decide,
   payFine_on_waived_double_decrement {} 7200 7300 7400 exDB 1 exBorrow exUser 99 98 "lenient"
     (by decide) (by decide) (by decide) (by decide) (by with_unfolding_all decide)
     (by decide) (by decide) (by decide)⟩

/-! ### C8: lost-book fine -/

/-- C8: for a loan on a book priced 1000, with no existing lost-type fine
and no replacement-cost argument, `createLostBookFine` creates a fine of
2000 (price times the default lost-book multiplier 2), marks the loan
`isLost = true` with status `completed`, and increments the user's fine
balance by 2000. -/
theorem createLostBookFine_doubles_price
    (env : Env) (now : Int) (db : DB) (bid : Nat) (b : Borrow) (bk : Book) (u : UserRec)
    (hb : findBorrow db bid = some b) (hnl : hasLostFine db bid = false)
    (hbk : findBook db b.book = some bk) (hprice : bk.price = 1000)
    (hu : findUser db b.user = some u)
    (henv : env.notifCreateFails = false) :
    (createLostBookFine env now db bid none).1 = .ok (newLostFine db now b bid bk.price) ∧
    (newLostFine db now b bid bk.price).amount = 2000 ∧
    findBorrow (createLostBookFine env now db bid none).2 bid
      = some { b with isLost := true, lostAt := some now, status := .completed } ∧
    findUser (createLostBookFine env now db bid none).2 b.user
      = some { u with fineBalance := u.fineBalance + 2000 } := by
  have huS : (findUser db b.user).isSome = true := by rw [hu]; rfl
  obtain ⟨h1, ns, h2⟩ := createLostBookFine_run env now db bid b bk hb hnl hbk huS
  rw [henv] at h1
  simp only [Bool.false_eq_true, if_false] at h1
  have hA : (newLostFine db now b bid bk.price).amount = 2000 := by
    show bk.price * defaultConfig.lostBookMultiplier = 2000
    rw [hprice]
    show (1000 : ℚ) * 2 = 2000
    norm_num
  refine ⟨h1, hA, ?_, ?_⟩
  · rw [h2]
    have hmap := findBorrow_updateBorrow (addFine db (newLostFine db now b bid bk.price)) bid
      (fun x => { x with isLost := true, lostAt := some now, status := .completed })
      (fun x => rfl) bid
    have hb' : findBorrow (addFine db (newLostFine db now b bid bk.price)) bid = some b := hb
    rw [hb'] at hmap
    have hid := List.find?_some (show db.borrows.find? (fun x => x.id == bid) = some b from hb)
    refine Eq.trans ?_ (by simp only [Option.map_some', if_pos hid] at hmap; exact hmap)
    rfl
  · rw [h2]
    have := findUser_incBalance_self
      (updateBorrow (addFine db (newLostFine db now b bid bk.price)) bid
        fun x => { x with isLost := true, lostAt := some now, status := .completed })
      u b.user (newLostFine db now b bid bk.price).amount hu
    exact this.trans (congrArg some (by rw [hA]))

/-- Witness for C8: the scenario loan on the book priced 1000. -/
theorem createLostBookFine_doubles_price_witness :
    findBorrow exDB 1 = some exBorrow ∧ hasLostFine exDB 1 = false ∧
    findBook exDB 20 = some exBook ∧ exBook.price = 1000 ∧
    findUser exDB 10 = some exUser ∧
    ((createLostBookFine {} 7200 exDB 1 none).1 = .ok (newLostFine exDB 7200 exBorrow 1 exBook.price) ∧
     (newLostFine exDB 7200 exBorrow 1 exBook.price).amount = 2000 ∧
     findBorrow (createLostBookFine {} 7200 exDB 1 none).2 1
       = some { exBorrow with isLost := true, lostAt := some 7200, status := .completed } ∧
     findUser (createLostBookFine {} 7200 exDB 1 none).2 10
       = some { exUser with fineBalance := exUser.fineBalance + 2000 }) :=
  ⟨by decide, by decide, by decide, by decide, by decide,
   createLostBookFine_doubles_price {} 7200 exDB 1 exBorrow exBook exUser
     (by decide) (by decide) (by decide) (by decide) (by decide) (by decide)⟩

/-! ### C9: notification failure behavior (corrected) -/

/-- C9 (amended): fine creation is never rolled back by notification
trouble — the fine record and the balance increment persist in every case.
Failures of the SMS/email transport are swallowed inside
`sendNotification`'s per-channel handler and `createOverdueFine` still
succeeds, returning the persisted fine; but a failure of the notification
record write inside `sendFineNotice` propagates: `createOverdueFine`
rethrows it, so the caller sees an error even though the fine and the
balance increment were persisted. -/
theorem createOverdueFine_notification_boundary
    (env : Env) (now : Int) (db : DB) (bid : Nat) (b : Borrow) (u : UserRec)
    (hb : findBorrow db bid = some b) (hst : b.status ≠ BorrowStatus.completed)
    (hno : hasOverdueFine db bid = false)
    (hg : db.gracePeriod < diffDays now b.dueDate)
    (hpos : 1 ≤ min (rawOverdueAmount db now b) db.maxFine)
    (hu : findUser db b.user = some u) :
    ((createOverdueFine { env with notifCreateFails := false } now db bid).1
        = .ok (some (newOverdueFine db now b bid))) ∧
    ((createOverdueFine { env with notifCreateFails := false } now db bid).2.fines
        = db.fines ++ [newOverdueFine db now b bid]) ∧
    ((createOverdueFine { env with notifCreateFails := true } now db bid).1
        = .error .notificationFailed) ∧
    ((createOverdueFine { env with notifCreateFails := true } now db bid).2.fines
        = db.fines ++ [newOverdueFine db now b bid]) ∧
    (findUser (createOverdueFine { env with notifCreateFails := true } now db bid).2 b.user
        = some { u with
                 fineBalance := u.fineBalance + (newOverdueFine db now b bid).amount }) := by
  have huS : (findUser db b.user).isSome = true := by rw [hu]; rfl
  obtain ⟨g1, nsg, g2⟩ := createOverdueFine_run { env with notifCreateFails := false }
    now db bid b hb hst hno hg hpos huS
  obtain ⟨e1, nse, e2⟩ := createOverdueFine_run { env with notifCreateFails := true }
    now db bid b hb hst hno hg hpos huS
  simp only [show ({ env with notifCreateFails := false } : Env).notifCreateFails = false
    from rfl, Bool.false_eq_true, if_false] at g1
  simp only [show ({ env with notifCreateFails := true } : Env).notifCreateFails = true
    from rfl, if_pos] at e1
  refine ⟨g1, ?_, e1, ?_, ?_⟩
  · rw [g2]
    rfl
  · rw [e2]
    rfl
  · rw [e2]
    exact findUser_incBalance_self (addFine db (newOverdueFine db now b bid)) u b.user
      (newOverdueFine db now b bid).amount hu

/-- Witness for C9 (amended): the scenario loan, with both notification
outcomes exercised (and failing email transport in the success case). -/
theorem createOverdueFine_notification_boundary_witness :
    findBorrow exDB 1 = some exBorrow ∧ exBorrow.status ≠ BorrowStatus.completed ∧
    hasOverdueFine exDB 1 = false ∧
    exDB.gracePeriod < diffDays 7200 exBorrow.dueDate ∧
    1 ≤ min (rawOverdueAmount exDB 7200 exBorrow) exDB.maxFine ∧
    findUser exDB 10 = some exUser ∧
    (((createOverdueFine { Env.mk false true false with notifCreateFails := false } 7200 exDB 1).1
        = .ok (some (newOverdueFine exDB 7200 exBorrow 1))) ∧
     ((createOverdueFine { Env.mk false true false with notifCreateFails := false } 7200 exDB 1).2.fines
        = exDB.fines ++ [newOverdueFine exDB 7200 exBorrow 1]) ∧
     ((createOverdueFine { Env.mk false true false with notifCreateFails := true } 7200 exDB 1).1
        = .error .notificationFailed) ∧
     ((createOverdueFine { Env.mk false true false with notifCreateFails := true } 7200 exDB 1).2.fines
        = exDB.fines ++ [newOverdueFine exDB 7200 exBorrow 1]) ∧
     (findUser (createOverdueFine { Env.mk false true false with notifCreateFails := true } 7200 exDB 1).2 10
        = some { exUser with
                 fineBalance := exUser.fineBalance + (newOverdueFine exDB 7200 exBorrow 1).amount })) :=
  ⟨by decide, by decide, by decide, by decide, by with_unfolding_all decide, by decide,
   createOverdueFine_notification_boundary (Env.mk false true false) 7200 exDB 1 exBorrow exUser
     (by decide) (by decide) (by decide) (by decide) (by with_unfolding_all decide) (by decide)⟩

/-- Counterexample for C9 as stated: when the notification record write
fails during `createOverdueFine`, the operation does not succeed — the
caller receives an error — even though the fine was persisted and the
balance incremented (no rollback). -/
theorem createOverdueFine_notifFail_surfaces :
    (createOverdueFine { notifCreateFails := true } 7200 exDB 1).1
      = .error .notificationFailed ∧
    (createOverdueFine { notifCreateFails := true } 7200 exDB 1).2.fines
      = exDB.fines ++ [newOverdueFine exDB 7200 exBorrow 1] ∧
    findUser (createOverdueFine { notifCreateFails := true } 7200 exDB 1).2 10
      = some { exUser with
               fineBalance := exUser.fineBalance + (newOverdueFine exDB 7200 exBorrow 1).amount } := by
  obtain ⟨h1, ns, h2⟩ := createOverdueFine_run { notifCreateFails := true } 7200 exDB 1 exBorrow
    (by decide) (by decide) (by decide) (by decide) (by with_unfolding_all decide) (by decide)
  simp only [show ({ notifCreateFails := true } : Env).notifCreateFails = true from rfl,
    if_pos] at h1
  refine ⟨h1, ?_, ?_⟩
  · rw [h2]
    rfl
  · rw [h2]
    exact findUser_incBalance_self (addFine exDB (newOverdueFine exDB 7200 exBorrow 1))
      exUser 10 (newOverdueFine exDB 7200 exBorrow 1).amount (by decide)

/-! ### Lemmas for the overdue sweep (C2) -/

/-- Two states with the same borrow table agree on `findBorrow`. -/
theorem findBorrow_congr (X Y : DB) (h : X.borrows = Y.borrows) (v : Nat) :
    findBorrow X v = findBorrow Y v := by
  unfold findBorrow
  rw [h]

/-- Two states with the same configuration table agree on the grace period. -/
theorem gracePeriod_congr (X Y : DB) (h : X.config = Y.config) :
    X.gracePeriod = Y.gracePeriod := by
  unfold DB.gracePeriod
  rw [h]

/-- Two states with the same configuration table agree on the fine cap. -/
theorem maxFine_congr (X Y : DB) (h : X.config = Y.config) : X.maxFine = Y.maxFine := by
  unfold DB.maxFine
  rw [h]

/-- Two states with the same configuration agree on the raw overdue amount. -/
theorem rawOverdueAmount_congr (X Y : DB) (now : Int) (b : Borrow)
    (h : X.config = Y.config) : rawOverdueAmount X now b = rawOverdueAmount Y now b := by
  unfold rawOverdueAmount DB.rateType DB.gracePeriod DB.dailyRate DB.hourlyRate
  rw [h]

/-- `find?` is some exactly when some element satisfies the predicate. -/
theorem find?_isSome_eq_any {α : Type} (l : List α) (p : α → Bool) :
    (l.find? p).isSome = l.any p := by
  induction l with
  | nil => rfl
  | cons x xs ih =>
    rw [List.find?_cons, List.any_cons]
    cases hp : p x
    · simp [ih]
    · simp

/-- States whose user tables carry the same ids agree on whether a user
lookup succeeds. -/
theorem findUser_isSome_congr (X Y : DB)
    (h : X.users.map UserRec.id = Y.users.map UserRec.id) (v : Nat) :
    (findUser X v).isSome = (findUser Y v).isSome := by
  have key : ∀ (l : List UserRec),
      (l.any fun u => u.id == v) = ((l.map UserRec.id).any fun i => i == v) := by
    intro l
    induction l with
    | nil => rfl
    | cons x xs ih => simp only [List.any_cons, List.map_cons, ih]
  unfold findUser
  rw [find?_isSome_eq_any, find?_isSome_eq_any, key, key, h]

/-- No overdue fine for a loan is the same as an overdue-fine count of 0. -/
theorem hasOverdueFine_false_iff (X : DB) (bid : Nat) :
    hasOverdueFine X bid = false ↔ countOverdueFines X bid = 0 := by
  unfold hasOverdueFine countOverdueFines
  rw [List.countP_eq_zero]
  constructor
  · intro h
    exact List.any_eq_false.mp h
  · intro h
    exact List.any_eq_false.mpr h

/-- A positive overdue-fine count means the duplicate check fires. -/
theorem hasOverdueFine_true_of_count (X : DB) (bid : Nat)
    (h : countOverdueFines X bid ≠ 0) : hasOverdueFine X bid = true := by
  cases hh : hasOverdueFine X bid
  · exact absurd ((hasOverdueFine_false_iff X bid).mp hh) h
  · rfl

/-- Splitting a list at the first element found by `find?`. -/
theorem find?_some_split {α : Type} (l : List α) (p : α → Bool) (a : α)
    (h : l.find? p = some a) :
    ∃ l1 l2, l = l1 ++ a :: l2 ∧ ∀ x ∈ l1, p x = false := by
  induction l with
  | nil => cases h
  | cons x xs ih =>
    rw [List.find?_cons] at h
    cases hp : p x
    · rw [hp] at h
      obtain ⟨l1, l2, hl, hl1⟩ := ih h
      exact ⟨x :: l1, l2, by rw [hl]; rfl, fun y hy => by
        cases hy with
        | head => exact hp
        | tail _ hy' => exact hl1 y hy'⟩
    · rw [hp] at h
      cases h
      exact ⟨[], xs, rfl, fun y hy => by cases hy⟩

/-- Balance increments do not change the set of user ids. -/
theorem incBalance_users_ids (db : DB) (uid : Nat) (d : ℚ) :
    (incBalance db uid d).users.map UserRec.id = db.users.map UserRec.id := by
  unfold incBalance
  rw [List.map_map]
  congr 1
  funext x
  dsimp only [Function.comp_apply]
  split <;> rfl

/-- The notification path touches only the notification table. -/
theorem sendFineNotice_state (env : Env) (db : DB) (f : Fine) :
    (sendFineNotice env db f).2.borrows = db.borrows ∧
    (sendFineNotice env db f).2.config = db.config ∧
    (sendFineNotice env db f).2.users = db.users ∧
    (sendFineNotice env db f).2.fines = db.fines := by
  unfold sendFineNotice sendNotification
  split
  · exact ⟨rfl, rfl, rfl, rfl⟩
  · split
    · exact ⟨rfl, rfl, rfl, rfl⟩
    · exact ⟨rfl, rfl, rfl, rfl⟩

/-- Whatever happens inside `createOverdueFine`, the borrow table and the
configuration are untouched, user ids are preserved, and the only possible
change to the fine table is appending fines attached to the processed loan. -/
theorem createOverdueFine_state (env : Env) (now : Int) (db : DB) (bid : Nat) :
    (createOverdueFine env now db bid).2.borrows = db.borrows ∧
    (createOverdueFine env now db bid).2.config = db.config ∧
    (createOverdueFine env now db bid).2.users.map UserRec.id = db.users.map UserRec.id ∧
    ∃ tail, (createOverdueFine env now db bid).2.fines = db.fines ++ tail ∧
      ∀ f ∈ tail, f.borrow = bid := by
  unfold createOverdueFine
  split
  next => exact ⟨rfl, rfl, rfl, [], by simp, by simp⟩
  next b hfound =>
    split
    next => exact ⟨rfl, rfl, rfl, [], by simp, by simp⟩
    next hdup =>
      split
      next e hcalc => exact ⟨rfl, rfl, rfl, [], by simp, by simp⟩
      next fc hcalc =>
        split
        next => exact ⟨rfl, rfl, rfl, [], by simp, by simp⟩
        next hne =>
          split
          next => exact ⟨rfl, rfl, rfl, [], by simp, by simp⟩
          next uu huu =>
            dsimp only
            split
            all_goals next res db2 hsend =>
              have hs := sendFineNotice_state env
                (incBalance (addFine db (mkOverdueFine db now b bid fc)) b.user fc.fineAmount)
                (mkOverdueFine db now b bid fc)
              rw [hsend] at hs
              refine ⟨hs.1.trans rfl, hs.2.1.trans rfl, ?_,
                [mkOverdueFine db now b bid fc], ?_, ?_⟩
              · exact (congrArg (List.map UserRec.id) hs.2.2.1).trans
                  (incBalance_users_ids (addFine db (mkOverdueFine db now b bid fc))
                    b.user fc.fineAmount)
              · exact hs.2.2.2.trans rfl
              · intro g hg
                simp only [List.mem_singleton] at hg
                rw [hg]
                rfl

/-- Appending fines for a different loan does not change a loan's
overdue-fine count. -/
theorem countOverdueFines_append_ne (db2 db : DB) (bid xid : Nat) (tail : List Fine)
    (hf : db2.fines = db.fines ++ tail) (ht : ∀ f ∈ tail, f.borrow = xid)
    (hne : xid ≠ bid) :
    countOverdueFines db2 bid = countOverdueFines db bid := by
  unfold countOverdueFines
  rw [hf, List.countP_append]
  have hz : tail.countP (fun f => f.borrow == bid && f.ftype == FineType.overdue) = 0 := by
    rw [List.countP_eq_zero]
    intro f hfm
    rw [ht f hfm]
    simp [hne]
  rw [hz, Nat.add_zero]

/-- Appending fines never erases an existing overdue fine. -/
theorem hasOverdueFine_append (db2 db : DB) (bid : Nat) (tail : List Fine)
    (hf : db2.fines = db.fines ++ tail) (h : hasOverdueFine db bid = true) :
    hasOverdueFine db2 bid = true := by
  unfold hasOverdueFine at h ⊢
  rw [hf, List.any_append, h]
  rfl

/-- A sweep over loans other than `bid` changes neither the borrow table,
the configuration, the user ids, nor `bid`'s overdue-fine count. -/
theorem sweepGo_preserves (env : Env) (now : Int) (bid : Nat) :
    ∀ (l : List Borrow) (c : Nat) (db : DB), (∀ x ∈ l, x.id ≠ bid) →
    (sweepGo env now l c db).2.borrows = db.borrows ∧
    (sweepGo env now l c db).2.config = db.config ∧
    (sweepGo env now l c db).2.users.map UserRec.id = db.users.map UserRec.id ∧
    countOverdueFines (sweepGo env now l c db).2 bid = countOverdueFines db bid := by
  intro l
  induction l with
  | nil => intro c db h; exact ⟨rfl, rfl, rfl, rfl⟩
  | cons x xs ih =>
    intro c db h
    have hx : x.id ≠ bid := h x (List.mem_cons_self x xs)
    have hxs : ∀ y ∈ xs, y.id ≠ bid := fun y hy => h y (List.mem_cons_of_mem x hy)
    simp only [sweepGo]
    cases hskip : hasOverdueFine db x.id
    · obtain ⟨hsb, hsc, hsu, tail, hsf, htail⟩ := createOverdueFine_state env now db x.id
      rcases hp : createOverdueFine env now db x.id with ⟨r, db1⟩
      rw [hp] at hsb hsc hsu hsf
      simp only [Bool.false_eq_true, if_false]
      have hcnt : countOverdueFines db1 bid = countOverdueFines db bid :=
        countOverdueFines_append_ne db1 db bid x.id tail hsf htail hx
      cases r with
      | error e =>
        obtain ⟨ib, ic, iu, icount⟩ := ih c db1 hxs
        exact ⟨ib.trans hsb, ic.trans hsc, iu.trans hsu, icount.trans hcnt⟩
      | ok v =>
        obtain ⟨ib, ic, iu, icount⟩ := ih (c + 1) db1 hxs
        exact ⟨ib.trans hsb, ic.trans hsc, iu.trans hsu, icount.trans hcnt⟩
    · simp only [if_true]
      exact ih c db hxs

/-- Once a loan has an overdue fine, any sweep leaves its overdue-fine
count (and the existence of its fine) unchanged. -/
theorem sweepGo_count_stable (env : Env) (now : Int) (bid : Nat) :
    ∀ (l : List Borrow) (c : Nat) (db : DB), hasOverdueFine db bid = true →
    countOverdueFines (sweepGo env now l c db).2 bid = countOverdueFines db bid ∧
    hasOverdueFine (sweepGo env now l c db).2 bid = true := by
  intro l
  induction l with
  | nil => intro c db h; exact ⟨rfl, h⟩
  | cons x xs ih =>
    intro c db h
    simp only [sweepGo]
    cases hskip : hasOverdueFine db x.id
    · have hx : x.id ≠ bid := by
        intro he
        rw [he, h] at hskip
        cases hskip
      obtain ⟨hsb, hsc, hsu, tail, hsf, htail⟩ := createOverdueFine_state env now db x.id
      rcases hp : createOverdueFine env now db x.id with ⟨r, db1⟩
      rw [hp] at hsf
      simp only [Bool.false_eq_true, if_false]
      have hcnt : countOverdueFines db1 bid = countOverdueFines db bid :=
        countOverdueFines_append_ne db1 db bid x.id tail hsf htail hx
      have hh1 : hasOverdueFine db1 bid = true := hasOverdueFine_append db1 db bid tail hsf h
      cases r with
      | error e =>
        obtain ⟨icount, ihas⟩ := ih c db1 hh1
        exact ⟨icount.trans hcnt, ihas⟩
      | ok v =>
        obtain ⟨icount, ihas⟩ := ih (c + 1) db1 hh1
        exact ⟨icount.trans hcnt, ihas⟩
    · simp only [if_true]
      exact ih c db h

/-- Once a loan has an overdue fine, a sweep behaves exactly as if the loan
were removed from the list: it is skipped, contributing nothing to the
processed count and changing nothing. -/
theorem sweepGo_skips_fined (env : Env) (now : Int) (bid : Nat) :
    ∀ (l : List Borrow) (c : Nat) (db : DB), hasOverdueFine db bid = true →
    sweepGo env now l c db = sweepGo env now (l.filter fun x => x.id != bid) c db := by
  intro l
  induction l with
  | nil => intro c db h; rfl
  | cons x xs ih =>
    intro c db h
    by_cases hxb : x.id = bid
    · have hfilter : (x :: xs).filter (fun x => x.id != bid) = xs.filter fun x => x.id != bid :=
        List.filter_cons_of_neg (by simp [hxb])
      rw [hfilter, ← ih c db h]
      simp only [sweepGo]
      rw [hxb, h]
      simp
    · have hfilter : (x :: xs).filter (fun x => x.id != bid)
          = x :: (xs.filter fun x => x.id != bid) :=
        List.filter_cons_of_pos (by simp [hxb])
      rw [hfilter]
      simp only [sweepGo]
      cases hskip : hasOverdueFine db x.id
      · obtain ⟨hsb, hsc, hsu, tail, hsf, htail⟩ := createOverdueFine_state env now db x.id
        rcases hp : createOverdueFine env now db x.id with ⟨r, db1⟩
        rw [hp] at hsf
        simp only [Bool.false_eq_true, if_false]
        have hh1 : hasOverdueFine db1 bid = true := hasOverdueFine_append db1 db bid tail hsf h
        cases r with
        | error e => exact ih c db1 hh1
        | ok v => exact ih (c + 1) db1 hh1
      · simp only [if_true]
        exact ih c db h

/-- `createOverdueFine` on a loan that already carries an overdue-type fine
fails with `DuplicateFine` and changes nothing. -/
theorem createOverdueFine_duplicate (env : Env) (now : Int) (db : DB) (bid : Nat)
    (hb : (findBorrow db bid).isSome = true) (hdup : hasOverdueFine db bid = true) :
    createOverdueFine env now db bid = (.error .duplicateFine, db) := by
  obtain ⟨b, hb'⟩ := Option.isSome_iff_exists.mp hb
  unfold createOverdueFine
  rw [hb']
  simp [hdup]

/-- Sweeping a concatenation sweeps the first part, then the second. -/
theorem sweepGo_append (env : Env) (now : Int) :
    ∀ (l1 l2 : List Borrow) (c : Nat) (db : DB),
    sweepGo env now (l1 ++ l2) c db
      = sweepGo env now l2 (sweepGo env now l1 c db).1 (sweepGo env now l1 c db).2 := by
  intro l1
  induction l1 with
  | nil => intro l2 c db; rfl
  | cons x xs ih =>
    intro l2 c db
    show sweepGo env now (x :: (xs ++ l2)) c db = _
    simp only [sweepGo]
    cases hskip : hasOverdueFine db x.id
    · simp only [Bool.false_eq_true, if_false]
      rcases hp : createOverdueFine env now db x.id with ⟨r, db1⟩
      cases r with
      | error e => exact ih l2 c db1
      | ok v => exact ih l2 (c + 1) db1
    · simp only [if_true]
      exact ih l2 c db

/-! ### C2: at most one overdue fine per loan -/

/-- C2: for a loan whose overdue fine gets created, at most one
overdue-type fine ever exists: the creating call leaves exactly one fine
record and a second `createOverdueFine` call fails with `DuplicateFine`,
changing nothing; a first `processOverdueFines` sweep also creates exactly
one fine for the loan, a second sweep creates no new fine for it, and the
second sweep runs exactly as if the loan were dropped from the overdue
list, so its `processedCount` excludes the loan. -/
theorem overdue_fine_at_most_once
    (env : Env) (now : Int) (db : DB) (bid : Nat) (b : Borrow) (u : UserRec)
    (hb : findBorrow db bid = some b)
    (hact : b.status = BorrowStatus.active) (hbt : b.btype = BorrowType.borrowed)
    (hdue : b.dueDate < now)
    (hno : hasOverdueFine db bid = false)
    (hg : db.gracePeriod < diffDays now b.dueDate)
    (hpos : 1 ≤ min (rawOverdueAmount db now b) db.maxFine)
    (hu : findUser db b.user = some u)
    (henv : env.notifCreateFails = false) :
    countOverdueFines (createOverdueFine env now db bid).2 bid = 1 ∧
    createOverdueFine env now (createOverdueFine env now db bid).2 bid
      = (.error .duplicateFine, (createOverdueFine env now db bid).2) ∧
    countOverdueFines (processOverdueFines env now db).2 bid = 1 ∧
    countOverdueFines (processOverdueFines env now (processOverdueFines env now db).2).2 bid
      = 1 ∧
    (processOverdueFines env now (processOverdueFines env now db).2).1.processedCount
      = (sweepGo env now
          ((overdueBorrows (processOverdueFines env now db).2 now).filter fun x => x.id != bid)
          0 (processOverdueFines env now db).2).1 := by
  have hst : b.status ≠ BorrowStatus.completed := by
    rw [hact]
    intro h
    cases h
  have hcount0 : countOverdueFines db bid = 0 := (hasOverdueFine_false_iff db bid).mp hno
  have huS : (findUser db b.user).isSome = true := by rw [hu]; rfl
  obtain ⟨h1, ns, h2⟩ := createOverdueFine_run env now db bid b hb hst hno hg hpos huS
  have hA : countOverdueFines (createOverdueFine env now db bid).2 bid = 1 := by
    rw [h2]
    show (db.fines ++ [newOverdueFine db now b bid]).countP
        (fun f => f.borrow == bid && f.ftype == FineType.overdue) = 1
    rw [List.countP_append]
    have h0 : db.fines.countP (fun f => f.borrow == bid && f.ftype == FineType.overdue) = 0 :=
      hcount0
    rw [h0]
    have fp : ((newOverdueFine db now b bid).borrow == bid
        && (newOverdueFine db now b bid).ftype == FineType.overdue) = true := by
      show (bid == bid && FineType.overdue == FineType.overdue) = true
      simp
    simp [List.countP_cons, fp]
  have hBfound : (findBorrow (createOverdueFine env now db bid).2 bid).isSome = true := by
    rw [findBorrow_congr _ db (createOverdueFine_state env now db bid).1 bid, hb]
    rfl
  have hBdup : hasOverdueFine (createOverdueFine env now db bid).2 bid = true :=
    hasOverdueFine_true_of_count _ bid (by rw [hA]; exact one_ne_zero)
  have hB := createOverdueFine_duplicate env now (createOverdueFine env now db bid).2 bid
    hBfound hBdup
  -- decompose the borrow table at the loan found by findBorrow
  obtain ⟨L1, L2, hbor, hL1⟩ := find?_some_split db.borrows (fun x => x.id == bid) b hb
  have hbid : b.id = bid := by
    have hfs := List.find?_some
      (show db.borrows.find? (fun x => x.id == bid) = some b from hb)
    exact eq_of_beq hfs
  have hqb : isOverdueQuery now b = true := by
    unfold isOverdueQuery
    rw [hact, hbt]
    simp [hdue]
  have hod : overdueBorrows db now
      = L1.filter (isOverdueQuery now) ++ b :: L2.filter (isOverdueQuery now) := by
    unfold overdueBorrows
    rw [hbor, List.filter_append, List.filter_cons_of_pos hqb]
  have hL1q : ∀ x ∈ L1.filter (isOverdueQuery now), x.id ≠ bid := by
    intro x hx he
    have hmem := List.mem_of_mem_filter hx
    have hxb := hL1 x hmem
    rw [he] at hxb
    simp at hxb
  obtain ⟨pb, pc, pu, pcount⟩ :=
    sweepGo_preserves env now bid (L1.filter (isOverdueQuery now)) 0 db hL1q
  have hno1 : hasOverdueFine (sweepGo env now (L1.filter (isOverdueQuery now)) 0 db).2 bid
      = false := (hasOverdueFine_false_iff _ _).mpr (pcount.trans hcount0)
  have hb2 : findBorrow (sweepGo env now (L1.filter (isOverdueQuery now)) 0 db).2 bid
      = some b := (findBorrow_congr _ db pb bid).trans hb
  have hg2 : (sweepGo env now (L1.filter (isOverdueQuery now)) 0 db).2.gracePeriod
      < diffDays now b.dueDate := by
    rw [gracePeriod_congr _ db pc]
    exact hg
  have hpos2 : 1 ≤ min
      (rawOverdueAmount (sweepGo env now (L1.filter (isOverdueQuery now)) 0 db).2 now b)
      (sweepGo env now (L1.filter (isOverdueQuery now)) 0 db).2.maxFine := by
    rw [rawOverdueAmount_congr _ db now b pc, maxFine_congr _ db pc]
    exact hpos
  have hu2 : (findUser (sweepGo env now (L1.filter (isOverdueQuery now)) 0 db).2
      b.user).isSome = true := (findUser_isSome_congr _ db pu b.user).trans huS
  obtain ⟨r1, ns1, r2⟩ := createOverdueFine_run env now
    (sweepGo env now (L1.filter (isOverdueQuery now)) 0 db).2 bid b hb2 hst hno1 hg2 hpos2 hu2
  rw [henv] at r1
  simp only [Bool.false_eq_true, if_false] at r1
  have hrr : (createOverdueFine env now
      (sweepGo env now (L1.filter (isOverdueQuery now)) 0 db).2 bid).1
      = .ok (some (newOverdueFine
          (sweepGo env now (L1.filter (isOverdueQuery now)) 0 db).2 now b bid)) := r1
  have hcnt2 : countOverdueFines (createOverdueFine env now
      (sweepGo env now (L1.filter (isOverdueQuery now)) 0 db).2 bid).2 bid = 1 := by
    rw [r2]
    show ((sweepGo env now (L1.filter (isOverdueQuery now)) 0 db).2.fines
        ++ [newOverdueFine (sweepGo env now (L1.filter (isOverdueQuery now)) 0 db).2
             now b bid]).countP
        (fun f => f.borrow == bid && f.ftype == FineType.overdue) = 1
    rw [List.countP_append]
    have h0 : (sweepGo env now (L1.filter (isOverdueQuery now)) 0 db).2.fines.countP
        (fun f => f.borrow == bid && f.ftype == FineType.overdue) = 0 :=
      pcount.trans hcount0
    rw [h0]
    have fp : ((newOverdueFine (sweepGo env now (L1.filter (isOverdueQuery now)) 0 db).2
        now b bid).borrow == bid
        && (newOverdueFine (sweepGo env now (L1.filter (isOverdueQuery now)) 0 db).2
            now b bid).ftype == FineType.overdue) = true := by
      show (bid == bid && FineType.overdue == FineType.overdue) = true
      simp
    simp [List.countP_cons, fp]
  have hhas2 : hasOverdueFine (createOverdueFine env now
      (sweepGo env now (L1.filter (isOverdueQuery now)) 0 db).2 bid).2 bid = true :=
    hasOverdueFine_true_of_count _ bid (by rw [hcnt2]; exact one_ne_zero)
  have hchain : (processOverdueFines env now db).2
      = (sweepGo env now (L2.filter (isOverdueQuery now))
          ((sweepGo env now (L1.filter (isOverdueQuery now)) 0 db).1 + 1)
          (createOverdueFine env now
            (sweepGo env now (L1.filter (isOverdueQuery now)) 0 db).2 bid).2).2 := by
    show (sweepGo env now (overdueBorrows db now) 0 db).2 = _
    rw [hod, sweepGo_append]
    show (sweepGo env now (b :: L2.filter (isOverdueQuery now))
        (sweepGo env now (L1.filter (isOverdueQuery now)) 0 db).1
        (sweepGo env now (L1.filter (isOverdueQuery now)) 0 db).2).2 = _
    simp only [sweepGo]
    rw [show hasOverdueFine (sweepGo env now (L1.filter (isOverdueQuery now)) 0 db).2 b.id
        = false from by rw [hbid]; exact hno1]
    simp only [Bool.false_eq_true, if_false]
    rw [show createOverdueFine env now
        (sweepGo env now (L1.filter (isOverdueQuery now)) 0 db).2 b.id
        = createOverdueFine env now
          (sweepGo env now (L1.filter (isOverdueQuery now)) 0 db).2 bid from by rw [hbid]]
    rw [show createOverdueFine env now
        (sweepGo env now (L1.filter (isOverdueQuery now)) 0 db).2 bid
      = ((createOverdueFine env now
            (sweepGo env now (L1.filter (isOverdueQuery now)) 0 db).2 bid).1,
         (createOverdueFine env now
            (sweepGo env now (L1.filter (isOverdueQuery now)) 0 db).2 bid).2) from rfl]
    rw [hrr]
  have hC : countOverdueFines (processOverdueFines env now db).2 bid = 1 := by
    rw [hchain]
    obtain ⟨scount, shas⟩ := sweepGo_count_stable env now bid
      (L2.filter (isOverdueQuery now))
      ((sweepGo env now (L1.filter (isOverdueQuery now)) 0 db).1 + 1)
      (createOverdueFine env now
        (sweepGo env now (L1.filter (isOverdueQuery now)) 0 db).2 bid).2 hhas2
    rw [scount, hcnt2]
  have hhas3 : hasOverdueFine (processOverdueFines env now db).2 bid = true :=
    hasOverdueFine_true_of_count _ bid (by rw [hC]; exact one_ne_zero)
  have hD : countOverdueFines
      (processOverdueFines env now (processOverdueFines env now db).2).2 bid = 1 := by
    obtain ⟨scount, shas⟩ := sweepGo_count_stable env now bid
      (overdueBorrows (processOverdueFines env now db).2 now) 0
      (processOverdueFines env now db).2 hhas3
    exact scount.trans hC
  have hE : (processOverdueFines env now (processOverdueFines env now db).2).1.processedCount
      = (sweepGo env now
          ((overdueBorrows (processOverdueFines env now db).2 now).filter
            fun x => x.id != bid)
          0 (processOverdueFines env now db).2).1 := by
    show (sweepGo env now (overdueBorrows (processOverdueFines env now db).2 now) 0
        (processOverdueFines env now db).2).1 = _
    rw [sweepGo_skips_fined env now bid
      (overdueBorrows (processOverdueFines env now db).2 now) 0
      (processOverdueFines env now db).2 hhas3]
  exact ⟨hA, hB, hC, hD, hE⟩

/-- Witness for C2: the scenario loan, swept and charged once. -/
theorem overdue_fine_at_most_once_witness :
    findBorrow exDB 1 = some exBorrow ∧ exBorrow.status = BorrowStatus.active ∧
    exBorrow.btype = BorrowType.borrowed ∧ exBorrow.dueDate < 7200 ∧
    hasOverdueFine exDB 1 = false ∧
    exDB.gracePeriod < diffDays 7200 exBorrow.dueDate ∧
    1 ≤ min (rawOverdueAmount exDB 7200 exBorrow) exDB.maxFine ∧
    findUser exDB 10 = some exUser ∧
    (countOverdueFines (createOverdueFine {} 7200 exDB 1).2 1 = 1 ∧
     createOverdueFine {} 7200 (createOverdueFine {} 7200 exDB 1).2 1
       = (.error .duplicateFine, (createOverdueFine {} 7200 exDB 1).2) ∧
     countOverdueFines (processOverdueFines {} 7200 exDB).2 1 = 1 ∧
     countOverdueFines (processOverdueFines {} 7200 (processOverdueFines {} 7200 exDB).2).2 1
       = 1 ∧
     (processOverdueFines {} 7200 (processOverdueFines {} 7200 exDB).2).1.processedCount
       = (sweepGo {} 7200
           ((overdueBorrows (processOverdueFines {} 7200 exDB).2 7200).filter
             fun x => x.id != 1)
           0 (processOverdueFines {} 7200 exDB).2).1) :=
  ⟨by decide, by decide, by decide, by decide, by decide, by decide,
   by with_unfolding_all decide, by decide,
   overdue_fine_at_most_once {} 7200 exDB 1 exBorrow exUser
     (by decide) (by decide) (by decide) (by decide) (by decide) (by decide)
     (by with_unfolding_all decide) (by decide) (by decide)⟩
